import Mathlib

/-!
Verification of the ghostcommit diff-to-prompt compression pipeline.

This file contains a shallow embedding of the TypeScript sources
`src/diff-processor.ts` (chunk parsing, ignore rules, budget-constrained
reduction, prompt-side rendering), `src/utils.ts` (`estimateTokens`,
`truncateLines`) and the retry loop of `src/commands/commit.ts`
(`runCommit`), together with theorems about the embedded definitions.

Modelling conventions:
  * JavaScript strings are modelled as Lean `String`; all characters that
    occur in the relevant data are in the Basic Multilingual Plane, where
    the JS UTF-16 `length` coincides with the Lean character count.
  * `text.split(sep)` / `arr.join(sep)` are modelled by `jsSplit` /
    `jsJoin`, defined over the underlying character lists.
  * `Array.prototype.sort` (stable since ES2019) is modelled by a stable
    insertion sort; for the consistent comparator used by the source, any
    stable sort produces the same list.
  * In-place mutation of chunk objects is modelled by producing new
    records; the source never reads a chunk through an alias after
    mutating a field that the read would observe.
-/

set_option maxRecDepth 20000

/-! ## Character-list string primitives -/

/-- Splits a character list at every occurrence of `sep`, JS
`String.prototype.split` semantics with a single-character separator:
`"".split` gives `[""]`, a trailing separator yields a trailing empty
piece. -/
def splitListOn (sep : Char) : List Char → List (List Char)
  | [] => [[]]
  | c :: rest =>
    if c = sep then [] :: splitListOn sep rest
    else
      match splitListOn sep rest with
      | [] => [[c]]
      | h :: t => (c :: h) :: t

/-- JS `s.split(sep)` for a one-character separator. -/
def jsSplit (sep : Char) (s : String) : List String :=
  (splitListOn sep s.data).map (fun l => ⟨l⟩)

/-- JS `s.split("\n")`. -/
def jsSplitLines (s : String) : List String :=
  jsSplit '\n' s

/-- JS `arr.join(sep)`: empty array gives `""`, otherwise the pieces
interleaved with the separator. -/
def jsJoin (sep : String) (ls : List String) : String :=
  match ls with
  | [] => ""
  | h :: t => t.foldl (fun acc x => acc ++ sep ++ x) h

/-- JS `s.startsWith(t)`. -/
def strStartsWith (s t : String) : Bool :=
  t.data.isPrefixOf s.data

/-- JS `s.endsWith(t)`. -/
def strEndsWith (s t : String) : Bool :=
  t.data.isSuffixOf s.data

/-- Helper for `strContainsSub`: does `sub` occur as a contiguous
sublist of `l`? -/
def listContainsSub (sub : List Char) : List Char → Bool
  | [] => sub.isEmpty
  | l@(_ :: t) => sub.isPrefixOf l || listContainsSub sub t

/-- JS `s.includes(t)`. -/
def strContainsSub (s t : String) : Bool :=
  listContainsSub t.data s.data

/-- JS falsiness test for a string: only `""` is falsy. -/
def strIsEmpty (s : String) : Bool :=
  match s.data with
  | [] => true
  | _ :: _ => false

/-- The characters matched by JS `String.prototype.trim` (whitespace and
line terminators, ECMA-262 `TrimString`). -/
def isJsWhitespace (c : Char) : Bool :=
  c = ' ' || c = '\t' || c = '\n' || c = '\r' ||
  c.toNat = 0x0b || c.toNat = 0x0c || c.toNat = 0xa0 || c.toNat = 0x1680 ||
  (0x2000 ≤ c.toNat && c.toNat ≤ 0x200a) ||
  c.toNat = 0x2028 || c.toNat = 0x2029 || c.toNat = 0x202f ||
  c.toNat = 0x205f || c.toNat = 0x3000 || c.toNat = 0xfeff

/-- JS `!s.trim()`: true exactly when `s` consists of whitespace only. -/
def jsTrimIsEmpty (s : String) : Bool :=
  s.data.all isJsWhitespace

/-- JS template interpolation of a possibly-`undefined` string:
`undefined` renders as the text `"undefined"`. -/
def showOptStr : Option String → String
  | some s => s
  | none => "undefined"

/-! ## utils.ts -/

/-- utils.ts `estimateTokens`: `Math.ceil(text.length / 4)`. -/
def estimateTokens (text : String) : Nat :=
  (text.length + 3) / 4

/-- utils.ts `truncateLines`: keeps the first `maxLines` lines and
appends a literal `... (truncated N more lines)` trailer, returning the
text unchanged when it has at most `maxLines` lines. -/
def truncateLines (text : String) (maxLines : Nat) : String :=
  let lines := jsSplitLines text
  if lines.length ≤ maxLines then text
  else
    jsJoin "\n" (lines.take maxLines) ++
      "\n... (truncated " ++ toString (lines.length - maxLines) ++ " more lines)"

/-! ## diff-processor.ts: data and ignore rules -/

/-- git.ts `StagedFile`. -/
structure StagedFile where
  status : String
  path : String
  oldPath : Option String := none
deriving DecidableEq, Repr

/-- diff-processor.ts `FileChunk`. -/
structure FileChunk where
  path : String
  status : String
  oldPath : Option String := none
  diff : String
  additions : Nat
  deletions : Nat
deriving DecidableEq, Repr

/-- diff-processor.ts `ProcessedDiff`. -/
structure ProcessedDiff where
  chunks : List FileChunk
  summary : String
  totalAdditions : Nat
  totalDeletions : Nat
  wasFiltered : Bool
  wasTruncated : Bool
deriving DecidableEq, Repr

def DEFAULT_IGNORE_PATTERNS : List String :=
  ["package-lock.json", "yarn.lock", "pnpm-lock.yaml", "bun.lockb",
   "Gemfile.lock", "Cargo.lock", "poetry.lock", "composer.lock", "go.sum"]

def DEFAULT_IGNORE_GLOBS : List String :=
  ["*.generated.*", "*.min.js", "*.min.css", "*.map"]

def DEFAULT_IGNORE_DIRS : List String :=
  ["dist/", "build/", ".next/", "__pycache__/"]

def SOURCE_EXTENSIONS : List String :=
  [".ts", ".tsx", ".js", ".jsx", ".py", ".java", ".go", ".rs", ".rb",
   ".c", ".cpp", ".h", ".cs", ".swift", ".kt", ".scala", ".vue", ".svelte"]

def TOKEN_LIMIT : Nat := 2000

def MAX_LINES_PER_FILE : Nat := 60

/-- The glob matcher compiled by diff-processor.ts `matchSimpleGlob`:
the pattern is anchored at both ends, `*` matches any run of characters,
`?` a single character, every other character itself (the source builds
the regex by escaping `.` and substituting `*` and `?`; the patterns it
is used with contain no further regex metacharacters). The source's
per-pattern regex cache only memoizes and does not change behaviour. -/
def globMatch : List Char → List Char → Bool
  | [], str => str.isEmpty
  | c :: pat, str =>
    if c == '*' then str.tails.any (fun rest => globMatch pat rest)
    else
      match str with
      | [] => false
      | d :: str' => (c == '?' || c == d) && globMatch pat str'

/-- diff-processor.ts `matchSimpleGlob`. -/
def matchSimpleGlob (fileName pattern : String) : Bool :=
  globMatch pattern.data fileName.data

/-- diff-processor.ts: `filePath.split("/").pop() || ""`. -/
def jsFileName (filePath : String) : String :=
  (jsSplit '/' filePath).getLastD ""

/-- diff-processor.ts `shouldIgnoreFile`: exact default filenames, then
default build/output directories, then default globs, then the
caller-supplied extra patterns; first match wins and no match means not
ignored. -/
def shouldIgnoreFile (filePath : String) (extraIgnorePaths : List String) : Bool :=
  let fileName := jsFileName filePath
  if DEFAULT_IGNORE_PATTERNS.contains fileName then true
  else if DEFAULT_IGNORE_DIRS.any (fun dir =>
      strStartsWith filePath dir || strContainsSub filePath ("/" ++ dir)) then true
  else if DEFAULT_IGNORE_GLOBS.any (fun pat => matchSimpleGlob fileName pat) then true
  else extraIgnorePaths.any (fun pat =>
    if strEndsWith pat "/" then
      strStartsWith filePath pat || strContainsSub filePath ("/" ++ pat)
    else if strContainsSub pat "*" then matchSimpleGlob fileName pat
    else filePath == pat || fileName == pat)

/-- diff-processor.ts `isSourceFile`. -/
def isSourceFile (filePath : String) : Bool :=
  SOURCE_EXTENSIONS.any (fun ext => strEndsWith filePath ext)

/-! ## diff-processor.ts: segmentation -/

/-- diff-processor.ts `countDiffChanges`: counts `+`/`-` lines excluding
the `+++`/`---` header markers. -/
def countDiffChanges (diff : String) : Nat × Nat :=
  (jsSplitLines diff).foldl
    (fun ad line =>
      if strStartsWith line "+" && !strStartsWith line "+++" then (ad.1 + 1, ad.2)
      else if strStartsWith line "-" && !strStartsWith line "---" then (ad.1, ad.2 + 1)
      else ad)
    (0, 0)

def DIFF_MARKER : List Char := "diff --git ".data

/-- Fuel-indexed worker for `splitDG`; the fuel only makes the
recursion structural and is irrelevant as long as it is at least the
length of the list (see `splitDGF_fuel_irrel`). -/
def splitDGF : Nat → List Char → Bool → List (List Char)
  | _, [], _ => [[]]
  | 0, l, _ => [l]
  | fuel + 1, c :: rest, atLineStart =>
    if atLineStart && DIFF_MARKER.isPrefixOf (c :: rest) then
      [] :: splitDGF fuel ((c :: rest).drop DIFF_MARKER.length) false
    else
      match splitDGF fuel rest (c == '\n') with
      | [] => [[c]]
      | h :: t => (c :: h) :: t

/-- The split `rawDiff.split(/^diff --git /m)`: cuts at every occurrence
of the marker `diff --git ` located at the start of the text or
immediately after a newline, removing the matched marker. The second
argument records whether the current position is a line start. -/
def splitDG (l : List Char) (atLineStart : Bool) : List (List Char) :=
  splitDGF l.length l atLineStart

/-- Search used by the header regex `/^a\/(.+?) b\/(.+)/m` inside one
line: after the leading `a/`, the lazy group takes the shortest nonempty
run followed by ` b/` such that a nonempty remainder is left for the
greedy final group. `pre` accumulates the characters already committed
to the first group. -/
def findBSplit (pre : List Char) : List Char → Option (List Char × List Char)
  | [] => none
  | c :: rest =>
    if " b/".data.isPrefixOf rest && (rest.drop 3).isEmpty = false then
      some (pre ++ [c], rest.drop 3)
    else findBSplit (pre ++ [c]) rest

/-- Match of `/^a\/(.+?) b\/(.+)/` against a single line (`.` never
matches a newline, so the whole match stays inside one line). -/
def headerMatchLine (line : String) : Option (String × String) :=
  if "a/".data.isPrefixOf line.data then
    match findBSplit [] (line.data.drop 2) with
    | some (o, n) => some (⟨o⟩, ⟨n⟩)
    | none => none
  else none

/-- The full multiline header match `fileDiff.match(/^a\/(.+?) b\/(.+)/m)`:
the first line (in order) admitting a header match. -/
def findHeader (fileDiff : String) : Option (String × String) :=
  (jsSplitLines fileDiff).findSome? headerMatchLine

/-- JS `stagedFile?.status || "M"` (an empty status string is falsy). -/
def statusOrM : Option StagedFile → String
  | none => "M"
  | some f => if f.status = "" then "M" else f.status

/-- diff-processor.ts `parseDiffIntoChunks`. -/
def parseDiffIntoChunks (rawDiff : String) (stagedFiles : List StagedFile) :
    List FileChunk :=
  let fileDiffs :=
    ((splitDG rawDiff.data true).map (fun l => (⟨l⟩ : String))).filter
      (fun s => !strIsEmpty s)
  fileDiffs.filterMap (fun fileDiff =>
    match findHeader fileDiff with
    | none => none
    | some (oldP, newP) =>
      let stagedFile := stagedFiles.find? (fun f => f.path == newP || f.oldPath == some oldP)
      let counts := countDiffChanges fileDiff
      some
        { path := newP
          status := statusOrM stagedFile
          oldPath := stagedFile.bind StagedFile.oldPath
          diff := "diff --git " ++ fileDiff
          additions := counts.1
          deletions := counts.2 })

/-! ## diff-processor.ts: reduction -/

/-- Serialization step `chunks.map((c) => c.diff).join("\n")`. -/
def serializeChunks (chunks : List FileChunk) : String :=
  jsJoin "\n" (chunks.map FileChunk.diff)

/-- Sort rank of the overflow comparator: source-code extensions first. -/
def sourceRank (c : FileChunk) : Nat :=
  if isSourceFile c.path then 0 else 1

/-- Strict "comes before" of the overflow comparator
`(a, b) => aIsSource - bIsSource`, tie-broken by ascending `diff.length`. -/
def chunkBefore (a b : FileChunk) : Bool :=
  sourceRank a < sourceRank b ||
    (sourceRank a == sourceRank b && a.diff.length < b.diff.length)

/-- Stable insertion of `x`: placed before the first element it strictly
precedes, hence after every earlier element it ties with. -/
def insertStable (lt : α → α → Bool) (x : α) : List α → List α
  | [] => [x]
  | y :: ys => if lt x y then x :: y :: ys else y :: insertStable lt x ys

/-- Stable sort (model of ES2019 `Array.prototype.sort`, which is
required to be stable; for a consistent comparator every stable sort
computes the same list). -/
def stableSortBy (lt : α → α → Bool) (l : List α) : List α :=
  l.foldl (fun acc x => insertStable lt x acc) []

/-- The per-chunk 60-line cap of the overflow path: `if (lines.length >
MAX_LINES_PER_FILE) chunk.diff = truncateLines(...)`. -/
def capChunk (c : FileChunk) : FileChunk :=
  if (jsSplitLines c.diff).length > MAX_LINES_PER_FILE then
    { c with diff := truncateLines c.diff MAX_LINES_PER_FILE }
  else c

/-- One line of the `Other files:` summary:
`  ${status === "R" ? oldPath + " → " : ""}${path} (+a -d)`. -/
def otherFileLine (c : FileChunk) : String :=
  "  " ++ (if c.status = "R" then showOptStr c.oldPath ++ " → " else "") ++
    c.path ++ " (+" ++ toString c.additions ++ " -" ++ toString c.deletions ++ ")"

/-- The synthetic summary chunk pushed for the dropped non-source files. -/
def otherFilesSummaryChunk (otherChunks : List FileChunk) : FileChunk :=
  { path := "(other files summary)"
    status := "S"
    oldPath := none
    diff := "Other files:\n" ++ jsJoin "\n" (otherChunks.map otherFileLine)
    additions := otherChunks.foldl (fun s c => s + c.additions) 0
    deletions := otherChunks.foldl (fun s c => s + c.deletions) 0 }

/-- The status label of the final file-list summary: `new: ` for added,
`deleted: ` for deleted, `renamed: old → ` for renamed, empty otherwise. -/
def statusLabel (c : FileChunk) : String :=
  if c.status = "A" then "new: "
  else if c.status = "D" then "deleted: "
  else if c.status = "R" then "renamed: " ++ showOptStr c.oldPath ++ " → "
  else ""

/-- One line of the file-list summary: `label path (+a -d)`. -/
def chunkSummaryLine (c : FileChunk) : String :=
  statusLabel c ++ c.path ++ " (+" ++ toString c.additions ++ " -" ++
    toString c.deletions ++ ")"

/-- The `summary` string built at the end of `processDiff` from the
final chunk list and the pre-truncation totals. -/
def buildSummary (chunks : List FileChunk) (totalAdditions totalDeletions : Nat) :
    String :=
  let real := chunks.filter (fun c => c.status ≠ "S")
  toString real.length ++ " files changed, +" ++ toString totalAdditions ++
    " -" ++ toString totalDeletions ++ "\n" ++
    jsJoin "\n" (real.map chunkSummaryLine)

/-- The chunks retained after the ignore filter (step used by
`processDiff` before any truncation). -/
def retainedChunks (rawDiff : String) (stagedFiles : List StagedFile)
    (extraIgnorePaths : List String) : List FileChunk :=
  (parseDiffIntoChunks rawDiff stagedFiles).filter
    (fun c => !shouldIgnoreFile c.path extraIgnorePaths)

/-- The chunk list after the overflow reorder (source-extension files
first, then ascending diff length) and the per-chunk 60-line cap. -/
def cappedSortedChunks (chunks : List FileChunk) : List FileChunk :=
  (stableSortBy chunkBefore chunks).map capChunk

/-- The second-level reduction `if still too large`: keep only source
chunks (re-truncated) when any exist, and append the synthetic summary
chunk when any non-source chunk was present. -/
def overflowChunks (capped : List FileChunk) : List FileChunk :=
  let sourceChunks := capped.filter (fun c => isSourceFile c.path)
  let otherChunks := capped.filter (fun c => !isSourceFile c.path)
  let kept :=
    if sourceChunks.length > 0 then
      sourceChunks.map (fun c => { c with diff := truncateLines c.diff MAX_LINES_PER_FILE })
    else capped
  if otherChunks.length > 0 then kept ++ [otherFilesSummaryChunk otherChunks]
  else kept

/-- diff-processor.ts `processDiff`. -/
def processDiff (rawDiff : String) (stagedFiles : List StagedFile)
    (extraIgnorePaths : List String) : ProcessedDiff :=
  if jsTrimIsEmpty rawDiff then
    { chunks := [], summary := "No changes", totalAdditions := 0,
      totalDeletions := 0, wasFiltered := false, wasTruncated := false }
  else
    let chunks0 := parseDiffIntoChunks rawDiff stagedFiles
    let chunks1 := retainedChunks rawDiff stagedFiles extraIgnorePaths
    let wasFiltered := chunks1.length < chunks0.length
    let totalAdditions := chunks1.foldl (fun s c => s + c.additions) 0
    let totalDeletions := chunks1.foldl (fun s c => s + c.deletions) 0
    let totalTokens := estimateTokens (serializeChunks chunks1)
    if totalTokens > TOKEN_LIMIT then
      let capped := cappedSortedChunks chunks1
      let chunksT :=
        if estimateTokens (serializeChunks capped) > TOKEN_LIMIT then
          overflowChunks capped
        else capped
      { chunks := chunksT
        summary := buildSummary chunksT totalAdditions totalDeletions
        totalAdditions := totalAdditions
        totalDeletions := totalDeletions
        wasFiltered := wasFiltered
        wasTruncated := true }
    else
      { chunks := chunks1
        summary := buildSummary chunks1 totalAdditions totalDeletions
        totalAdditions := totalAdditions
        totalDeletions := totalDeletions
        wasFiltered := wasFiltered
        wasTruncated := false }

/-! ## diff-processor.ts: prompt rendering -/

/-- diff-processor.ts `isInitialCommit`. -/
def isInitialCommit (chunks : List FileChunk) : Bool :=
  let realChunks := chunks.filter (fun c => c.status ≠ "S")
  realChunks.length > 5 && realChunks.all (fun c => c.status == "A")

/-- The `parts` list built by `formatDiffForPrompt` before any diff text
is appended. -/
def diffNoteParts (p : ProcessedDiff) : List String :=
  ["Files: " ++ p.summary]
  ++ (if p.wasFiltered then ["(Some auto-generated/lock files were excluded)"] else [])
  ++ (if p.wasTruncated then ["(Large diff was truncated to fit context window)"] else [])

/-- diff-processor.ts `formatDiffForPrompt`. -/
def formatDiffForPrompt (p : ProcessedDiff) : String :=
  if p.chunks.length = 0 then "No changes staged."
  else if isInitialCommit p.chunks then
    jsJoin "\n\n" (diffNoteParts p ++ ["(Initial commit — full diff omitted, use file list above)"])
  else
    jsJoin "\n\n" (diffNoteParts p ++ ["---"] ++ p.chunks.map FileChunk.diff)

/-! ## commit.ts: token budget and retry loop -/

def MAX_RETRIES : Nat := 3

def RESPONSE_RESERVE : Int := 500

/-- The per-attempt diff budget of `runCommit`:
`Math.max(500, Math.floor((providerBudget - promptOverhead - RESPONSE_RESERVE) / 2 ** attempt))`. -/
def diffBudget (providerBudget promptOverhead : Int) (attempt : Nat) : Int :=
  max 500 (Int.fdiv (providerBudget - promptOverhead - RESPONSE_RESERVE) (2 ^ attempt))

/-- Outcome of one `generateCommitMessage` call: the resolved message,
or the thrown error. -/
inductive GenOutcome (ε : Type) where
  | success (message : String)
  | failure (error : ε)
deriving DecidableEq, Repr

/-- The retry `for` loop of `runCommit`, starting at a given attempt
index: each iteration calls the backend with that attempt's diff budget;
a resolved call breaks out with the message; a thrown error continues to
the next attempt only when `isTokenLimitError(error) && attempt <
MAX_RETRIES - 1`, and is otherwise rethrown. The second component
counts the backend invocations performed. -/
def retryFrom {ε : Type} (isTokenLimitErr : ε → Bool) (gen : Nat → Int → GenOutcome ε)
    (providerBudget promptOverhead : Int) (attempt : Nat) (attemptsLeft : Nat) :
    Except ε String × Nat :=
  match gen attempt (diffBudget providerBudget promptOverhead attempt) with
  | .success m => (.ok m, 1)
  | .failure e =>
    match attemptsLeft with
    | left + 1 =>
      if isTokenLimitErr e then
        let r := retryFrom isTokenLimitErr gen providerBudget promptOverhead
          (attempt + 1) left
        (r.1, r.2 + 1)
      else (.error e, 1)
    | 0 => (.error e, 1)

/-- The whole generate loop of `runCommit` (attempts `0 ..
MAX_RETRIES - 1`): `retryFrom` is entered with `MAX_RETRIES - 1`
attempts remaining after attempt `0`, so the guard `attemptsLeft > 0` of
`retryFrom` coincides with the source's `attempt < MAX_RETRIES - 1`. -/
def runCommitGenerate {ε : Type} (isTokenLimitErr : ε → Bool)
    (gen : Nat → Int → GenOutcome ε) (providerBudget promptOverhead : Int) :
    Except ε String × Nat :=
  retryFrom isTokenLimitErr gen providerBudget promptOverhead 0 (MAX_RETRIES - 1)

/-! ## Generic lemmas about the string primitives -/

theorem strData_append (a b : String) : (a ++ b).data = a.data ++ b.data :=
  String.data_append a b

theorem strMk_data (s : String) : (⟨s.data⟩ : String) = s := rfl

theorem strAppend_assoc (a b c : String) : a ++ b ++ c = a ++ (b ++ c) := by
  apply String.ext
  simp [strData_append]

/-- Prepends `p` to the first piece of a piece list. -/
def prependHead (p : List Char) : List (List Char) → List (List Char)
  | [] => [p]
  | h :: t => (p ++ h) :: t

theorem prependHead_prependHead (p q : List Char) (ls : List (List Char)) :
    prependHead p (prependHead q ls) = prependHead (p ++ q) ls := by
  cases ls <;> simp [prependHead]

theorem splitListOn_ne_nil (sep : Char) (l : List Char) : splitListOn sep l ≠ [] := by
  cases l with
  | nil => simp [splitListOn]
  | cons c rest =>
    simp only [splitListOn]
    split
    · simp
    · split <;> simp

theorem splitListOn_cons_sep (sep : Char) (l : List Char) :
    splitListOn sep (sep :: l) = [] :: splitListOn sep l := by
  simp [splitListOn]

theorem splitListOn_cons_ne (sep c : Char) (l : List Char) (h : c ≠ sep) :
    splitListOn sep (c :: l) = prependHead [c] (splitListOn sep l) := by
  simp only [splitListOn, if_neg h]
  cases hs : splitListOn sep l with
  | nil => exact absurd hs (splitListOn_ne_nil sep l)
  | cons a t => simp [prependHead]

theorem splitListOn_append_no_sep (sep : Char) (p l : List Char) (h : sep ∉ p) :
    splitListOn sep (p ++ l) = prependHead p (splitListOn sep l) := by
  induction p with
  | nil =>
    cases hs : splitListOn sep l with
    | nil => exact absurd hs (splitListOn_ne_nil sep l)
    | cons a t => simp [prependHead, hs]
  | cons c p ih =>
    have hc : c ≠ sep := fun hh => h (hh ▸ List.mem_cons_self c p)
    rw [List.cons_append, splitListOn_cons_ne sep c _ hc,
      ih (fun hm => h (List.mem_cons_of_mem c hm)), prependHead_prependHead]
    rfl

theorem splitListOn_no_sep (sep : Char) (l : List Char) (h : sep ∉ l) :
    splitListOn sep l = [l] := by
  have := splitListOn_append_no_sep sep l [] h
  simpa [splitListOn, prependHead] using this

theorem not_mem_of_mem_splitListOn (sep : Char) :
    ∀ (l piece : List Char), piece ∈ splitListOn sep l → sep ∉ piece := by
  intro l
  induction l with
  | nil =>
    intro piece hp
    simp [splitListOn] at hp
    simp [hp]
  | cons c rest ih =>
    intro piece hp
    by_cases hc : c = sep
    · subst hc
      rw [splitListOn_cons_sep] at hp
      rcases List.mem_cons.mp hp with h1 | h2
      · simp [h1]
      · exact ih piece h2
    · rw [splitListOn_cons_ne sep c rest hc] at hp
      cases hs : splitListOn sep rest with
      | nil => exact absurd hs (splitListOn_ne_nil sep rest)
      | cons a t =>
        rw [hs] at hp
        simp only [prependHead] at hp
        rcases List.mem_cons.mp hp with h1 | h2
        · subst h1
          intro hmem
          rcases List.mem_cons.mp hmem with h3 | h4
          · exact hc h3.symm
          · exact ih a (hs ▸ List.mem_cons_self a t) h4
        · exact ih piece (hs ▸ List.mem_cons_of_mem a h2)

theorem mem_of_mem_splitListOn (sep : Char) :
    ∀ (l piece : List Char), piece ∈ splitListOn sep l → ∀ c ∈ piece, c ∈ l := by
  intro l
  induction l with
  | nil =>
    intro piece hp c hc
    simp [splitListOn] at hp
    subst hp
    simp at hc
  | cons d rest ih =>
    intro piece hp c hc
    by_cases hd : d = sep
    · subst hd
      rw [splitListOn_cons_sep] at hp
      rcases List.mem_cons.mp hp with h1 | h2
      · subst h1; simp at hc
      · exact List.mem_cons_of_mem d (ih piece h2 c hc)
    · rw [splitListOn_cons_ne sep d rest hd] at hp
      cases hs : splitListOn sep rest with
      | nil => exact absurd hs (splitListOn_ne_nil sep rest)
      | cons a t =>
        rw [hs] at hp
        simp only [prependHead] at hp
        rcases List.mem_cons.mp hp with h1 | h2
        · subst h1
          rcases List.mem_cons.mp hc with h3 | h4
          · exact h3 ▸ List.mem_cons_self d rest
          · exact List.mem_cons_of_mem d
              (ih a (hs ▸ List.mem_cons_self a t) c h4)
        · exact List.mem_cons_of_mem d (ih piece (hs ▸ List.mem_cons_of_mem a h2) c hc)

theorem jsJoin_foldl_shift (sep : String) (t : List String) :
    ∀ (a b : String),
      t.foldl (fun acc x => acc ++ sep ++ x) (a ++ b) =
        a ++ t.foldl (fun acc x => acc ++ sep ++ x) b := by
  induction t with
  | nil => intro a b; rfl
  | cons x t ih =>
    intro a b
    simp only [List.foldl_cons]
    rw [strAppend_assoc (a ++ b) sep x, strAppend_assoc a b (sep ++ x),
      ← strAppend_assoc b sep x, ih a (b ++ sep ++ x), strAppend_assoc b sep x]

theorem jsJoin_cons_cons (sep a b : String) (t : List String) :
    jsJoin sep (a :: b :: t) = a ++ sep ++ jsJoin sep (b :: t) := by
  simp only [jsJoin, List.foldl_cons]
  exact jsJoin_foldl_shift sep t (a ++ sep) b

theorem jsJoin_append_single (sep x : String) (ls : List String) (h : ls ≠ []) :
    jsJoin sep (ls ++ [x]) = jsJoin sep ls ++ sep ++ x := by
  induction ls with
  | nil => exact absurd rfl h
  | cons a t ih =>
    cases t with
    | nil => rfl
    | cons b t' =>
      have h1 : (a :: b :: t') ++ [x] = a :: b :: (t' ++ [x]) := by simp
      have h2 : b :: (t' ++ [x]) = (b :: t') ++ [x] := by simp
      rw [h1, jsJoin_cons_cons sep a b (t' ++ [x]), h2, ih (by simp),
        jsJoin_cons_cons sep a b t']
      simp [strAppend_assoc]

theorem jsSplitLines_single (s : String) (h : '\n' ∉ s.data) :
    jsSplitLines s = [s] := by
  simp only [jsSplitLines, jsSplit, splitListOn_no_sep '\n' s.data h, List.map]

theorem jsSplitLines_jsJoin (ls : List String) (hne : ls ≠ [])
    (h : ∀ s ∈ ls, '\n' ∉ s.data) : jsSplitLines (jsJoin "\n" ls) = ls := by
  induction ls with
  | nil => exact absurd rfl hne
  | cons a t ih =>
    cases t with
    | nil => exact jsSplitLines_single a (h a (List.mem_cons_self a []))
    | cons b t' =>
      rw [jsJoin_cons_cons]
      have hdata : (a ++ "\n" ++ jsJoin "\n" (b :: t')).data =
          a.data ++ '\n' :: (jsJoin "\n" (b :: t')).data := by
        rw [strData_append, strData_append, List.append_assoc]
        rfl
      simp only [jsSplitLines, jsSplit, hdata]
      rw [splitListOn_append_no_sep '\n' a.data _ (h a (List.mem_cons_self a _)),
        splitListOn_cons_sep]
      cases hs : splitListOn '\n' (jsJoin "\n" (b :: t')).data with
      | nil => exact absurd hs (splitListOn_ne_nil _ _)
      | cons p ps =>
        simp only [prependHead, List.map]
        have hrest : jsSplitLines (jsJoin "\n" (b :: t')) = b :: t' :=
          ih (by simp) (fun s hs' => h s (List.mem_cons_of_mem a hs'))
        simp only [jsSplitLines, jsSplit, hs, List.map] at hrest
        rw [List.append_nil]
        exact List.cons_eq_cons.mpr ⟨rfl, hrest⟩

theorem strLength_mk (l : List Char) : (⟨l⟩ : String).length = l.length := rfl

theorem strLength_data (s : String) : s.data.length = s.length := rfl

theorem strLength_append (a b : String) : (a ++ b).length = a.length + b.length := by
  rw [← strLength_data, ← strLength_data, ← strLength_data, strData_append,
    List.length_append]

theorem jsSplitLines_ne_nil (s : String) : jsSplitLines s ≠ [] := by
  simp only [jsSplitLines, jsSplit]
  intro hc
  exact splitListOn_ne_nil '\n' s.data (List.map_eq_nil_iff.mp hc)

theorem truncateLines_of_le (t : String) (maxL : Nat)
    (h : (jsSplitLines t).length ≤ maxL) : truncateLines t maxL = t := by
  simp [truncateLines, h]

theorem truncateLines_of_gt (t : String) (maxL : Nat) (h0 : 0 < maxL)
    (h : maxL < (jsSplitLines t).length) :
    truncateLines t maxL =
      jsJoin "\n" ((jsSplitLines t).take maxL ++
        ["... (truncated " ++ toString ((jsSplitLines t).length - maxL) ++ " more lines)"]) := by
  have htake : (jsSplitLines t).take maxL ≠ [] := by
    intro hc
    rcases List.take_eq_nil_iff.mp hc with h1 | h2
    · omega
    · exact jsSplitLines_ne_nil t h2
  rw [jsJoin_append_single _ _ _ htake]
  simp only [truncateLines, if_neg (by omega : ¬ (jsSplitLines t).length ≤ maxL)]
  have hsplit : ("\n... (truncated " : String) = "\n" ++ "... (truncated " := by decide
  simp only [strAppend_assoc]
  rw [← strAppend_assoc ("\n" : String) "... (truncated ", ← hsplit]

theorem splitDGF_ne_nil : ∀ (fuel : Nat) (l : List Char) (st : Bool),
    splitDGF fuel l st ≠ [] := by
  intro fuel
  induction fuel with
  | zero =>
    intro l st
    cases l <;> simp [splitDGF]
  | succ f ih =>
    intro l st
    cases l with
    | nil => simp [splitDGF]
    | cons c rest =>
      simp only [splitDGF]
      split
      · simp
      · split <;> simp

theorem splitDGF_fuel_irrel : ∀ (f₁ : Nat) (l : List Char) (st : Bool) (f₂ : Nat),
    l.length ≤ f₁ → l.length ≤ f₂ → splitDGF f₁ l st = splitDGF f₂ l st := by
  intro f₁
  induction f₁ with
  | zero =>
    intro l st f₂ h1 _
    have : l = [] := List.eq_nil_of_length_eq_zero (by omega)
    subst this
    cases f₂ <;> rfl
  | succ f ih =>
    intro l st f₂ h1 h2
    cases l with
    | nil => cases f₂ <;> rfl
    | cons c rest =>
      cases f₂ with
      | zero => simp at h2
      | succ g =>
        simp only [splitDGF]
        cases hcond : st && DIFF_MARKER.isPrefixOf (c :: rest) with
        | true =>
          simp only [if_pos hcond]
          have hdrop : ((c :: rest).drop DIFF_MARKER.length).length ≤ f ∧
              ((c :: rest).drop DIFF_MARKER.length).length ≤ g := by
            have h11 : DIFF_MARKER.length = 11 := rfl
            simp only [List.length_drop, List.length_cons, h11] at *
            constructor <;> omega
          rw [ih _ false g hdrop.1 hdrop.2]
          simp
        | false =>
          have hrest : rest.length ≤ f ∧ rest.length ≤ g := by
            simp only [List.length_cons] at h1 h2
            constructor <;> omega
          rw [ih rest (c == '\n') g hrest.1 hrest.2]
          simp [hcond]

theorem splitDG_nil (st : Bool) : splitDG [] st = [[]] := rfl

theorem splitDG_ne_nil (l : List Char) (st : Bool) : splitDG l st ≠ [] :=
  splitDGF_ne_nil l.length l st

theorem splitDG_marker (rest : List Char) :
    splitDG (DIFF_MARKER ++ rest) true = [] :: splitDG rest false := by
  have hlen : (DIFF_MARKER ++ rest).length = rest.length + 11 := by
    rw [List.length_append]
    have h11 : DIFF_MARKER.length = 11 := rfl
    omega
  have hpre : DIFF_MARKER.isPrefixOf (DIFF_MARKER ++ rest) = true :=
    List.isPrefixOf_iff_prefix.mpr (List.prefix_append _ _)
  have hstep : splitDG (DIFF_MARKER ++ rest) true =
      splitDGF (rest.length + 11) (DIFF_MARKER ++ rest) true := by
    unfold splitDG
    rw [hlen]
  rw [hstep]
  have hcons : DIFF_MARKER ++ rest =
      'd' :: ("iff --git ".data ++ rest) := rfl
  rw [hcons]
  show (if (true && DIFF_MARKER.isPrefixOf ('d' :: ("iff --git ".data ++ rest))) = true
      then [] :: splitDGF (rest.length + 10)
        (('d' :: ("iff --git ".data ++ rest)).drop DIFF_MARKER.length) false
      else _) = _
  rw [← hcons, if_pos (by simp [hpre])]
  have hdrop : (DIFF_MARKER ++ rest).drop DIFF_MARKER.length = rest :=
    List.drop_left DIFF_MARKER rest
  rw [hdrop]
  have : splitDGF (rest.length + 10) rest false = splitDGF rest.length rest false :=
    splitDGF_fuel_irrel _ rest false _ (by omega) (by omega)
  rw [this]
  rfl

theorem splitDG_cons_of_not_marker (c : Char) (rest : List Char) (st : Bool)
    (h : (st && DIFF_MARKER.isPrefixOf (c :: rest)) = false) :
    splitDG (c :: rest) st = prependHead [c] (splitDG rest (c == '\n')) := by
  unfold splitDG
  show (if (st && DIFF_MARKER.isPrefixOf (c :: rest)) = true
      then [] :: splitDGF rest.length ((c :: rest).drop DIFF_MARKER.length) false
      else
        match splitDGF rest.length rest (c == '\n') with
        | [] => [[c]]
        | h :: t => (c :: h) :: t) = _
  rw [if_neg (by simp [h])]
  cases hs : splitDGF rest.length rest (c == '\n') with
  | nil => exact absurd hs (splitDGF_ne_nil _ _ _)
  | cons a t => simp [prependHead]

theorem marker_not_prefix_of_head (c : Char) (rest : List Char) (h : c ≠ 'd') :
    DIFF_MARKER.isPrefixOf (c :: rest) = false := by
  have hm : DIFF_MARKER = 'd' :: "iff --git ".data := rfl
  rw [hm]
  simp only [List.isPrefixOf_cons₂]
  simp [beq_eq_false_iff_ne, Ne.symm h]

theorem splitDG_cons_newline (rest : List Char) (st : Bool) :
    splitDG ('\n' :: rest) st = prependHead ['\n'] (splitDG rest true) := by
  have h := splitDG_cons_of_not_marker '\n' rest st
    (by simp [marker_not_prefix_of_head '\n' rest (by decide)])
  simpa using h

theorem splitDG_append_line (p : List Char) (hp : p ≠ []) (hn : '\n' ∉ p)
    (rest : List Char) (st : Bool) (hhead : st = false ∨ p.head? ≠ some 'd') :
    splitDG (p ++ rest) st = prependHead p (splitDG rest false) := by
  induction p generalizing st with
  | nil => exact absurd rfl hp
  | cons c p' ih =>
    have hcond : (st && DIFF_MARKER.isPrefixOf (c :: (p' ++ rest))) = false := by
      rcases hhead with h1 | h2
      · simp [h1]
      · have hc : c ≠ 'd' := by simpa using h2
        simp [marker_not_prefix_of_head c _ hc]
    have hcnl : (c == '\n') = false := by
      have : c ≠ '\n' := fun hh => hn (hh ▸ List.mem_cons_self c p')
      simp [this]
    rw [List.cons_append, splitDG_cons_of_not_marker c (p' ++ rest) st hcond, hcnl]
    cases hp' : p' with
    | nil => simp [prependHead]
    | cons d q =>
      rw [← hp', ih (by simp [hp']) (fun hm => hn (List.mem_cons_of_mem c hm))
        false (Or.inl rfl), prependHead_prependHead]
      rfl

theorem splitDG_join_lines (lines : List String) (hne : lines ≠ [])
    (hlines : ∀ s ∈ lines, s.data ≠ [] ∧ '\n' ∉ s.data ∧ s.data.head? ≠ some 'd')
    (rest : List Char) (st : Bool) :
    splitDG ((jsJoin "\n" lines).data ++ rest) st =
      prependHead (jsJoin "\n" lines).data (splitDG rest false) := by
  induction lines generalizing st with
  | nil => exact absurd rfl hne
  | cons a t ih =>
    cases t with
    | nil =>
      have ha := hlines a (List.mem_cons_self a [])
      exact splitDG_append_line a.data ha.1 ha.2.1 rest st (Or.inr ha.2.2)
    | cons b t' =>
      have ha := hlines a (List.mem_cons_self a _)
      have hdata : (jsJoin "\n" (a :: b :: t')).data =
          a.data ++ '\n' :: (jsJoin "\n" (b :: t')).data := by
        rw [jsJoin_cons_cons, strData_append, strData_append, List.append_assoc]
        rfl
      rw [hdata, List.append_assoc, List.cons_append,
        splitDG_append_line a.data ha.1 ha.2.1 _ st (Or.inr ha.2.2),
        splitDG_cons_newline,
        ih (by simp) (fun s hs => hlines s (List.mem_cons_of_mem a hs)) true,
        prependHead_prependHead, prependHead_prependHead]
      simp [List.append_assoc]

theorem splitDG_of_all_whitespace (l : List Char)
    (h : ∀ c ∈ l, isJsWhitespace c = true) : ∀ st, splitDG l st = [l] := by
  induction l with
  | nil => intro st; rfl
  | cons c rest ih =>
    intro st
    have hc : c ≠ 'd' := by
      intro hcd
      have := h c (List.mem_cons_self c rest)
      rw [hcd] at this
      simp [isJsWhitespace] at this
    rw [splitDG_cons_of_not_marker c rest st
      (by simp [marker_not_prefix_of_head c rest hc]),
      ih (fun x hx => h x (List.mem_cons_of_mem c hx))]
    rfl

theorem headerMatchLine_of_all_whitespace (s : String)
    (h : ∀ c ∈ s.data, isJsWhitespace c = true) : headerMatchLine s = none := by
  unfold headerMatchLine
  cases hd : s.data with
  | nil => simp [hd, List.isPrefixOf]
  | cons c rest =>
    have hc : c ≠ 'a' := by
      intro hca
      have := h c (hd ▸ List.mem_cons_self c rest)
      rw [hca] at this
      simp [isJsWhitespace] at this
    have : ("a/".data.isPrefixOf (c :: rest)) = false := by
      show List.isPrefixOf ('a' :: "/".data) (c :: rest) = false
      simp only [List.isPrefixOf_cons₂]
      simp [beq_eq_false_iff_ne, Ne.symm hc]
    simp [hd, this]

theorem parseDiffIntoChunks_of_whitespace (raw : String)
    (h : jsTrimIsEmpty raw = true) (staged : List StagedFile) :
    parseDiffIntoChunks raw staged = [] := by
  have hall : ∀ c ∈ raw.data, isJsWhitespace c = true := by
    simpa [jsTrimIsEmpty, List.all_eq_true] using h
  unfold parseDiffIntoChunks
  rw [splitDG_of_all_whitespace raw.data hall true]
  cases hd : raw.data with
  | nil =>
    simp [strIsEmpty, hd]
  | cons c rest =>
    have hne : strIsEmpty (⟨raw.data⟩ : String) = false := by
      simp [strIsEmpty, hd]
    simp only [List.map, List.filter, hne, Bool.not_false, List.filterMap]
    have hfind : findHeader (⟨raw.data⟩ : String) = none := by
      unfold findHeader
      rw [List.findSome?_eq_none_iff]
      intro line hline
      apply headerMatchLine_of_all_whitespace
      intro ch hch
      simp only [jsSplitLines, jsSplit, List.mem_map] at hline
      obtain ⟨piece, hpiece, hline'⟩ := hline
      subst hline'
      exact hall ch (mem_of_mem_splitListOn '\n' raw.data piece hpiece ch hch)
    rw [hd] at hfind
    rw [hfind]

theorem foldl_replicate_const {α β : Type} (f : β → α → β) (x : α)
    (h : ∀ b, f b x = b) : ∀ (n : Nat) (b : β), (List.replicate n x).foldl f b = b := by
  intro n
  induction n with
  | zero => intro b; rfl
  | succ m ih =>
    intro b
    rw [List.replicate_succ, List.foldl_cons, h b]
    exact ih b

theorem listContainsSub_iff (sub : List Char) :
    ∀ (l : List Char), listContainsSub sub l = true ↔ sub <:+: l := by
  intro l
  induction l with
  | nil =>
    simp only [listContainsSub, List.isEmpty_iff]
    constructor
    · intro h; simp [h]
    · intro h; simpa using List.eq_nil_of_infix_nil h
  | cons c t ih =>
    simp only [listContainsSub, Bool.or_eq_true, List.isPrefixOf_iff_prefix, ih]
    constructor
    · rintro (h | h)
      · exact h.isInfix
      · exact h.trans (List.suffix_cons c t).isInfix
    · intro h
      rcases List.infix_cons_iff.mp h with h1 | h2
      · exact Or.inl h1
      · exact Or.inr h2

theorem infix_jsJoin_of_mem (sep : String) :
    ∀ (ls : List String) (x : String), x ∈ ls →
      x.data <:+: (jsJoin sep ls).data := by
  intro ls
  induction ls with
  | nil => intro x hx; simp at hx
  | cons a t ih =>
    intro x hx
    cases t with
    | nil =>
      rcases List.mem_cons.mp hx with h1 | h2
      · subst h1; exact List.infix_refl _
      · simp at h2
    | cons b t' =>
      rw [jsJoin_cons_cons, strData_append, strData_append]
      rcases List.mem_cons.mp hx with h1 | h2
      · subst h1
        exact ((List.prefix_append x.data sep.data).trans
          (List.prefix_append (x.data ++ sep.data) (jsJoin sep (b :: t')).data)).isInfix
      · have := ih x h2
        exact this.trans (List.suffix_append _ _).isInfix

/-! ## Claim theorems -/

/-- C5: for all integers `providerBudget` and `overhead` and every attempt
index below `MAX_RETRIES`, the per-attempt diff budget
`max(500, floor((providerBudget - overhead - 500) / 2^attempt))` shrinks
monotonically with the attempt index and never falls below 500. -/
theorem C5_diff_budget_monotone_shrink (providerBudget promptOverhead : Int)
    (attempt : Nat) (_h : attempt < MAX_RETRIES) :
    diffBudget providerBudget promptOverhead (attempt + 1) ≤
      diffBudget providerBudget promptOverhead attempt ∧
    500 ≤ diffBudget providerBudget promptOverhead attempt := by
  constructor
  · unfold diffBudget
    generalize providerBudget - promptOverhead - RESPONSE_RESERVE = x
    apply max_le (le_max_left _ _)
    rcases le_or_lt 0 x with hnn | hneg
    · obtain ⟨m, rfl⟩ : ∃ m : Nat, x = (m : Int) :=
        ⟨x.toNat, (Int.toNat_of_nonneg hnn).symm⟩
      have hle : ((m / 2 ^ (attempt + 1) : Nat) : Int) ≤ ((m / 2 ^ attempt : Nat) : Int) := by
        exact_mod_cast Nat.div_le_div_left
          (Nat.pow_le_pow_right (by norm_num) (by omega)) (Nat.pos_pow_of_pos attempt (by norm_num))
      have hcast : ∀ k : Nat, (m : Int).fdiv (2 ^ k) = ((m / 2 ^ k : Nat) : Int) := by
        intro k
        rw [Int.fdiv_eq_ediv _ (by positivity), Int.ofNat_ediv]
        norm_cast
      rw [hcast, hcast]
      calc ((m / 2 ^ (attempt + 1) : Nat) : Int)
          ≤ ((m / 2 ^ attempt : Nat) : Int) := hle
        _ ≤ max 500 ((m / 2 ^ attempt : Nat) : Int) := le_max_right _ _
    · have : x.fdiv (2 ^ (attempt + 1)) < 0 := by
        rw [Int.fdiv_eq_ediv _ (by positivity)]
        exact Int.ediv_neg' hneg (by positivity)
      calc x.fdiv (2 ^ (attempt + 1)) ≤ 500 := by omega
        _ ≤ max 500 (x.fdiv (2 ^ attempt)) := le_max_left _ _
  · exact le_max_left _ _

/-- Witness for C5 at `providerBudget = 4000`, `overhead = 100`,
`attempt = 0`. -/
theorem C5_diff_budget_monotone_shrink_witness :
    diffBudget 4000 100 1 ≤ diffBudget 4000 100 0 ∧ 500 ≤ diffBudget 4000 100 0 :=
  C5_diff_budget_monotone_shrink 4000 100 0 (by decide)

/-- C6: for an empty or whitespace-only raw diff, `processDiff` returns
zero chunks, summary exactly `No changes`, zero totals and both flags
false; and `formatDiffForPrompt` on any result with zero chunks returns
exactly `No changes staged.`. -/
theorem C6_empty_diff_terminal (raw : String) (staged : List StagedFile)
    (extra : List String) (h : jsTrimIsEmpty raw = true) :
    processDiff raw staged extra =
      { chunks := [], summary := "No changes", totalAdditions := 0,
        totalDeletions := 0, wasFiltered := false, wasTruncated := false } ∧
    (∀ p : ProcessedDiff, p.chunks = [] → formatDiffForPrompt p = "No changes staged.") := by
  constructor
  · simp [processDiff, h]
  · intro p hp
    simp [formatDiffForPrompt, hp]

/-- Witness for C6 at the empty raw diff. -/
theorem C6_empty_diff_terminal_witness :
    processDiff "" [] [] =
      { chunks := [], summary := "No changes", totalAdditions := 0,
        totalDeletions := 0, wasFiltered := false, wasTruncated := false } ∧
    formatDiffForPrompt
      { chunks := [], summary := "No changes", totalAdditions := 0,
        totalDeletions := 0, wasFiltered := false, wasTruncated := false } =
      "No changes staged." := by
  have h := C6_empty_diff_terminal "" [] [] (by decide)
  exact ⟨h.1, h.2 _ rfl⟩

/-- The first rule group of `shouldIgnoreFile`: exact default filename
match. -/
def ignoreRuleExact (filePath : String) : Bool :=
  DEFAULT_IGNORE_PATTERNS.contains (jsFileName filePath)

/-- The second rule group: default build/output directory names, by
path-prefix or `/name/` substring match. -/
def ignoreRuleDirs (filePath : String) : Bool :=
  DEFAULT_IGNORE_DIRS.any (fun dir =>
    strStartsWith filePath dir || strContainsSub filePath ("/" ++ dir))

/-- The third rule group: default filename globs. -/
def ignoreRuleGlobs (filePath : String) : Bool :=
  DEFAULT_IGNORE_GLOBS.any (fun pat => matchSimpleGlob (jsFileName filePath) pat)

/-- The fourth rule group: caller-supplied extra patterns. -/
def ignoreRuleExtra (filePath : String) (extraIgnorePaths : List String) : Bool :=
  extraIgnorePaths.any (fun pat =>
    if strEndsWith pat "/" then
      strStartsWith filePath pat || strContainsSub filePath ("/" ++ pat)
    else if strContainsSub pat "*" then matchSimpleGlob (jsFileName filePath) pat
    else filePath == pat || jsFileName filePath == pat)

/-- C9: `shouldIgnoreFile` evaluates its four rule groups in the fixed
order (default exact filenames, default directories, default globs,
extra patterns) with first match winning; no match means not ignored
(for pure predicates this order is the disjunction below); every path
whose filename is `package-lock.json` is ignored; `dist/app.js` is
ignored; `src/index.ts` is not ignored by the defaults. -/
theorem C9_should_ignore_rules :
    (∀ p extra, shouldIgnoreFile p extra =
      (ignoreRuleExact p || ignoreRuleDirs p || ignoreRuleGlobs p ||
        ignoreRuleExtra p extra)) ∧
    (∀ p extra, ignoreRuleExact p = false → ignoreRuleDirs p = false →
      ignoreRuleGlobs p = false → ignoreRuleExtra p extra = false →
      shouldIgnoreFile p extra = false) ∧
    (∀ p, jsFileName p = "package-lock.json" → shouldIgnoreFile p [] = true) ∧
    shouldIgnoreFile "dist/app.js" [] = true ∧
    shouldIgnoreFile "src/index.ts" [] = false := by
  have hrules : ∀ p extra, shouldIgnoreFile p extra =
      (ignoreRuleExact p || ignoreRuleDirs p || ignoreRuleGlobs p ||
        ignoreRuleExtra p extra) := by
    intro p extra
    simp only [shouldIgnoreFile, ignoreRuleExact, ignoreRuleDirs, ignoreRuleGlobs,
      ignoreRuleExtra]
    cases h1 : DEFAULT_IGNORE_PATTERNS.contains (jsFileName p) <;>
      cases h2 : DEFAULT_IGNORE_DIRS.any (fun dir =>
        strStartsWith p dir || strContainsSub p ("/" ++ dir)) <;>
      cases h3 : DEFAULT_IGNORE_GLOBS.any (fun pat => matchSimpleGlob (jsFileName p) pat) <;>
      simp [h1, h2, h3]
  refine ⟨hrules, ?_, ?_, by decide, by decide⟩
  · intro p extra h1 h2 h3 h4
    rw [hrules]
    simp [h1, h2, h3, h4]
  · intro p hname
    rw [hrules]
    have hex : ignoreRuleExact p = true := by
      unfold ignoreRuleExact
      rw [hname]
      decide
    simp [hex]

/-- Witness for C9: a nested `package-lock.json` path is ignored. -/
theorem C9_should_ignore_rules_witness :
    shouldIgnoreFile "a/b/package-lock.json" [] = true :=
  C9_should_ignore_rules.2.2.1 "a/b/package-lock.json" (by decide)

theorem isInitialCommit_iff (chunks : List FileChunk) :
    isInitialCommit chunks = true ↔
      (5 < (chunks.filter (fun c => c.status ≠ "S")).length ∧
        ∀ c ∈ chunks.filter (fun c => c.status ≠ "S"), c.status = "A") := by
  simp only [isInitialCommit, Bool.and_eq_true, decide_eq_true_eq,
    List.all_eq_true, beq_iff_eq, List.mem_filter, Bool.not_eq_true,
    and_imp]

/-- C8: when the retained (non-synthetic) chunk count exceeds 5 and
every retained non-synthetic chunk has status Added, the Assembler
emits only the file summary, the conditional notes and the omission
note, and no chunk diff text, regardless of total size; otherwise it
emits the separator followed by each chunk's diff text in order. -/
theorem C8_initial_commit_shortcut (p : ProcessedDiff) (hne : p.chunks ≠ []) :
    ((5 < (p.chunks.filter (fun c => c.status ≠ "S")).length ∧
      ∀ c ∈ p.chunks.filter (fun c => c.status ≠ "S"), c.status = "A") →
      formatDiffForPrompt p =
        jsJoin "\n\n" (diffNoteParts p ++
          ["(Initial commit — full diff omitted, use file list above)"])) ∧
    (¬(5 < (p.chunks.filter (fun c => c.status ≠ "S")).length ∧
      ∀ c ∈ p.chunks.filter (fun c => c.status ≠ "S"), c.status = "A") →
      formatDiffForPrompt p =
        jsJoin "\n\n" (diffNoteParts p ++ ["---"] ++ p.chunks.map FileChunk.diff)) := by
  have hlen : ¬ p.chunks.length = 0 := by
    simpa [List.length_eq_zero] using hne
  constructor
  · intro hcond
    have hic : isInitialCommit p.chunks = true := (isInitialCommit_iff p.chunks).mpr hcond
    simp [formatDiffForPrompt, hlen, hic]
  · intro hcond
    have hic : isInitialCommit p.chunks = false := by
      cases hi : isInitialCommit p.chunks with
      | true => exact absurd ((isInitialCommit_iff p.chunks).mp hi) hcond
      | false => rfl
    simp [formatDiffForPrompt, hlen, hic]

/-- Witness for C8: six added chunks trigger the file-list-only path. -/
theorem C8_initial_commit_shortcut_witness :
    formatDiffForPrompt
      { chunks := ["a1", "a2", "a3", "a4", "a5", "a6"].map
          (fun p => { path := p, status := "A", oldPath := none,
                      diff := "diff --git x", additions := 1, deletions := 0 }),
        summary := "6 files changed, +6 -0", totalAdditions := 6,
        totalDeletions := 0, wasFiltered := false, wasTruncated := false } =
      jsJoin "\n\n"
        (["Files: 6 files changed, +6 -0"] ++
          ["(Initial commit — full diff omitted, use file list above)"]) := by
  have h := (C8_initial_commit_shortcut
    { chunks := ["a1", "a2", "a3", "a4", "a5", "a6"].map
        (fun p => { path := p, status := "A", oldPath := none,
                    diff := "diff --git x", additions := 1, deletions := 0 }),
      summary := "6 files changed, +6 -0", totalAdditions := 6,
      totalDeletions := 0, wasFiltered := false, wasTruncated := false }
    (by decide)).1 (by constructor <;> decide)
  rw [h]
  rfl

theorem retryFrom_count_le {ε : Type} (isTokenLimitErr : ε → Bool)
    (gen : Nat → Int → GenOutcome ε) (providerBudget promptOverhead : Int) :
    ∀ (attemptsLeft attempt : Nat),
      (retryFrom isTokenLimitErr gen providerBudget promptOverhead attempt
        attemptsLeft).2 ≤ attemptsLeft + 1 := by
  intro attemptsLeft
  induction attemptsLeft with
  | zero =>
    intro attempt
    unfold retryFrom
    cases gen attempt (diffBudget providerBudget promptOverhead attempt) <;> simp
  | succ left ih =>
    intro attempt
    unfold retryFrom
    cases gen attempt (diffBudget providerBudget promptOverhead attempt) with
    | success m => simp
    | failure e =>
      cases hTL : isTokenLimitErr e with
      | true =>
        simp only [hTL, if_true]
        have := ih (attempt + 1)
        omega
      | false => simp [hTL]

/-- C2: the commit retry loop calls the backend at most `MAX_RETRIES = 3`
times; when every earlier attempt failed with a token-limit error, a
success at attempt `i` returns that message with exactly `i + 1` backend
calls (later attempts never run), and a failure at attempt `i` that is
not a token-limit error, or any failure on the final attempt, is
propagated unchanged after exactly `i + 1` calls. -/
theorem C2_retry_loop_control (ε : Type) (isTokenLimitErr : ε → Bool)
    (gen : Nat → Int → GenOutcome ε) (providerBudget promptOverhead : Int) :
    (runCommitGenerate isTokenLimitErr gen providerBudget promptOverhead).2 ≤ MAX_RETRIES ∧
    (∀ i, i < MAX_RETRIES →
      (∀ j, j < i → ∃ e,
        gen j (diffBudget providerBudget promptOverhead j) = .failure e ∧
        isTokenLimitErr e = true) →
      ((∀ m, gen i (diffBudget providerBudget promptOverhead i) = .success m →
        runCommitGenerate isTokenLimitErr gen providerBudget promptOverhead =
          (.ok m, i + 1)) ∧
       (∀ e, gen i (diffBudget providerBudget promptOverhead i) = .failure e →
        (isTokenLimitErr e = false ∨ i = MAX_RETRIES - 1) →
        runCommitGenerate isTokenLimitErr gen providerBudget promptOverhead =
          (.error e, i + 1)))) := by
  constructor
  · exact retryFrom_count_le isTokenLimitErr gen providerBudget promptOverhead 2 0
  · intro i hi hprev
    have hM : MAX_RETRIES = 3 := rfl
    rw [hM] at hi
    interval_cases i
    · constructor
      · intro m hm
        simp [runCommitGenerate, retryFrom, MAX_RETRIES, hm]
      · intro e he hclass
        have hf : isTokenLimitErr e = false := by
          rcases hclass with h | h
          · exact h
          · simp [hM] at h
        simp [runCommitGenerate, retryFrom, MAX_RETRIES, he, hf]
    · obtain ⟨e0, h0, t0⟩ := hprev 0 (by omega)
      constructor
      · intro m hm
        simp [runCommitGenerate, retryFrom, MAX_RETRIES, h0, t0, hm]
      · intro e he hclass
        have hf : isTokenLimitErr e = false := by
          rcases hclass with h | h
          · exact h
          · simp [hM] at h
        simp [runCommitGenerate, retryFrom, MAX_RETRIES, h0, t0, he, hf]
    · obtain ⟨e0, h0, t0⟩ := hprev 0 (by omega)
      obtain ⟨e1, h1, t1⟩ := hprev 1 (by omega)
      constructor
      · intro m hm
        simp [runCommitGenerate, retryFrom, MAX_RETRIES, h0, t0, h1, t1, hm]
      · intro e he _
        simp [runCommitGenerate, retryFrom, MAX_RETRIES, h0, t0, h1, t1, he]

/-- Witness for C2: token-limit failures on attempts 0 and 1 and a
success on attempt 2 give the attempt-2 message after exactly 3 calls. -/
theorem C2_retry_loop_control_witness :
    runCommitGenerate (fun b : Bool => b)
      (fun a _ => if a < 2 then .failure true else .success "third") 4000 100 =
      (.ok "third", 3) :=
  ((C2_retry_loop_control Bool (fun b => b)
    (fun a _ => if a < 2 then .failure true else .success "third") 4000 100).2
    2 (by decide)
    (fun j hj => ⟨true, by interval_cases j <;> rfl, rfl⟩)).1
    "third" rfl

theorem digitChar_ne_newline (m : Nat) : Nat.digitChar m ≠ '\n' := by
  rcases lt_or_ge m 16 with hlt | hge
  · interval_cases m <;> decide
  · unfold Nat.digitChar
    rw [if_neg (show ¬ m = 0 by omega), if_neg (show ¬ m = 1 by omega),
      if_neg (show ¬ m = 2 by omega), if_neg (show ¬ m = 3 by omega),
      if_neg (show ¬ m = 4 by omega), if_neg (show ¬ m = 5 by omega),
      if_neg (show ¬ m = 6 by omega), if_neg (show ¬ m = 7 by omega),
      if_neg (show ¬ m = 8 by omega), if_neg (show ¬ m = 9 by omega),
      if_neg (show ¬ m = 10 by omega), if_neg (show ¬ m = 11 by omega),
      if_neg (show ¬ m = 12 by omega), if_neg (show ¬ m = 13 by omega),
      if_neg (show ¬ m = 14 by omega), if_neg (show ¬ m = 15 by omega)]
    decide

theorem toDigitsCore_no_newline (b : Nat) :
    ∀ (f n : Nat) (acc : List Char), '\n' ∉ acc →
      '\n' ∉ Nat.toDigitsCore b f n acc := by
  intro f
  induction f with
  | zero => intro n acc hacc; simpa [Nat.toDigitsCore] using hacc
  | succ f ih =>
    intro n acc hacc
    simp only [Nat.toDigitsCore]
    split
    · intro hmem
      rcases List.mem_cons.mp hmem with h1 | h2
      · exact digitChar_ne_newline (n % b) h1.symm
      · exact hacc h2
    · apply ih
      intro hmem
      rcases List.mem_cons.mp hmem with h1 | h2
      · exact digitChar_ne_newline (n % b) h1.symm
      · exact hacc h2

theorem natToString_no_newline (n : Nat) : '\n' ∉ (toString n).data := by
  show '\n' ∉ (Nat.toDigits 10 n).asString.data
  simp only [Nat.toDigits, List.asString]
  exact toDigitsCore_no_newline 10 (n + 1) n [] (by simp)

theorem jsSplitLines_mem_no_newline (t s : String) (h : s ∈ jsSplitLines t) :
    '\n' ∉ s.data := by
  simp only [jsSplitLines, jsSplit, List.mem_map] at h
  obtain ⟨piece, hpiece, rfl⟩ := h
  exact not_mem_of_mem_splitListOn '\n' t.data piece hpiece

theorem truncTrailer_no_newline (n : Nat) :
    '\n' ∉ ("... (truncated " ++ toString n ++ " more lines)").data := by
  rw [strData_append, strData_append]
  intro hmem
  rcases List.mem_append.mp hmem with h1 | h2
  · rcases List.mem_append.mp h1 with h3 | h4
    · revert h3; decide
    · exact natToString_no_newline n h4
  · revert h2; decide

theorem jsSplitLines_truncateLines (t : String) (maxL : Nat) (h0 : 0 < maxL)
    (h : maxL < (jsSplitLines t).length) :
    jsSplitLines (truncateLines t maxL) =
      (jsSplitLines t).take maxL ++
        ["... (truncated " ++ toString ((jsSplitLines t).length - maxL) ++ " more lines)"] := by
  rw [truncateLines_of_gt t maxL h0 h]
  apply jsSplitLines_jsJoin
  · simp
  · intro s hs
    rcases List.mem_append.mp hs with h1 | h2
    · exact jsSplitLines_mem_no_newline t s (List.mem_of_mem_take h1)
    · rw [List.mem_singleton.mp h2]
      exact truncTrailer_no_newline _

/-- C4 counterexample input: sixty-two one-character lines. -/
def sixtyTwoLines : String := jsJoin "\n" (List.replicate 62 "x")

/-- C4 counterexample: re-applying the 60-line cap to the capped
62-line text rewrites the trailer (from 2 omitted lines to 1), so the
cap is not idempotent. -/
theorem C4_truncate_not_idempotent_counterexample :
    truncateLines (truncateLines sixtyTwoLines 60) 60 ≠
      truncateLines sixtyTwoLines 60 := by
  decide

/-- C4 amended: the 60-line cap is idempotent exactly on texts with at
most 61 lines; on longer texts the second application keeps the first
60 lines but rewrites the trailer to `... (truncated 1 more lines)`,
so the defensive re-application in the overflow path changes, rather
than preserves, an already-capped chunk that originally had more than
61 lines. -/
theorem C4_truncate_cap_reapplication (t : String) :
    ((jsSplitLines t).length ≤ 61 →
      truncateLines (truncateLines t 60) 60 = truncateLines t 60) ∧
    (61 < (jsSplitLines t).length →
      truncateLines (truncateLines t 60) 60 =
        jsJoin "\n" ((jsSplitLines t).take 60 ++ ["... (truncated 1 more lines)"])) := by
  have key : ∀ hgt : 60 < (jsSplitLines t).length,
      truncateLines (truncateLines t 60) 60 =
        jsJoin "\n" ((jsSplitLines t).take 60 ++
          ["... (truncated 1 more lines)"]) := by
    intro hgt
    have hlines : jsSplitLines (truncateLines t 60) =
        (jsSplitLines t).take 60 ++
          ["... (truncated " ++ toString ((jsSplitLines t).length - 60) ++ " more lines)"] :=
      jsSplitLines_truncateLines t 60 (by norm_num) hgt
    have htklen : ((jsSplitLines t).take 60).length = 60 := by
      rw [List.length_take]
      omega
    have hlen : (jsSplitLines (truncateLines t 60)).length = 61 := by
      rw [hlines, List.length_append, htklen]
      rfl
    rw [truncateLines_of_gt (truncateLines t 60) 60 (by norm_num) (by omega), hlen,
      hlines]
    have htake : (((jsSplitLines t).take 60 ++
        ["... (truncated " ++ toString ((jsSplitLines t).length - 60) ++ " more lines)"]).take 60) =
        (jsSplitLines t).take 60 :=
      List.take_left' htklen
    rw [htake]
    norm_num
    have htos : ("... (truncated " ++ toString (1 : Nat) ++ " more lines)" : String) =
        "... (truncated 1 more lines)" := by decide
    rw [htos]
  constructor
  · intro hle
    rcases le_or_lt (jsSplitLines t).length 60 with h60 | h61
    · rw [truncateLines_of_le t 60 h60, truncateLines_of_le t 60 h60]
    · have h61eq : (jsSplitLines t).length = 61 := by omega
      rw [key h61]
      rw [truncateLines_of_gt t 60 (by norm_num) h61, h61eq]
      norm_num
      have htos : ("... (truncated " ++ toString (1 : Nat) ++ " more lines)" : String) =
          "... (truncated 1 more lines)" := by decide
      rw [htos]
  · intro hgt
    exact key (by omega)

/-- Witness for the amended C4 at the 62-line input. -/
theorem C4_truncate_cap_reapplication_witness :
    truncateLines (truncateLines sixtyTwoLines 60) 60 =
      jsJoin "\n" ((jsSplitLines sixtyTwoLines).take 60 ++
        ["... (truncated 1 more lines)"]) :=
  (C4_truncate_cap_reapplication sixtyTwoLines).2 (by decide)

theorem processDiff_of_le (raw : String) (staged : List StagedFile)
    (extra : List String) (htrim : jsTrimIsEmpty raw = false)
    (hle : estimateTokens (serializeChunks (retainedChunks raw staged extra)) ≤ TOKEN_LIMIT) :
    (processDiff raw staged extra).chunks = retainedChunks raw staged extra ∧
    (processDiff raw staged extra).wasTruncated = false := by
  simp only [processDiff, htrim, Bool.false_eq_true, if_false,
    if_neg (Nat.not_lt.mpr hle)]
  exact ⟨trivial, trivial⟩

theorem processDiff_of_gt (raw : String) (staged : List StagedFile)
    (extra : List String) (htrim : jsTrimIsEmpty raw = false)
    (hgt : TOKEN_LIMIT < estimateTokens (serializeChunks (retainedChunks raw staged extra))) :
    (processDiff raw staged extra).wasTruncated = true := by
  simp only [processDiff, htrim, Bool.false_eq_true, if_false, if_pos hgt]

/-- C1 counterexample input: six small added TypeScript files, well
under the token limit. -/
def sixSmallDiff : String :=
  "diff --git a/a1.ts b/a1.ts\n+x1\ndiff --git a/a2.ts b/a2.ts\n+x2\ndiff --git a/a3.ts b/a3.ts\n+x3\ndiff --git a/a4.ts b/a4.ts\n+x4\ndiff --git a/a5.ts b/a5.ts\n+x5\ndiff --git a/a6.ts b/a6.ts\n+x6"

def sixSmallStaged : List StagedFile :=
  [⟨"A", "a1.ts", none⟩, ⟨"A", "a2.ts", none⟩, ⟨"A", "a3.ts", none⟩,
   ⟨"A", "a4.ts", none⟩, ⟨"A", "a5.ts", none⟩, ⟨"A", "a6.ts", none⟩]

/-- C1 counterexample: a six-file added diff whose estimate is far
below the limit is untruncated, yet the rendered output does not
contain the retained chunks' diff texts — the initial-commit shortcut
renders the file list only. -/
theorem C1_under_budget_rendering_counterexample :
    estimateTokens (serializeChunks (retainedChunks sixSmallDiff sixSmallStaged [])) ≤
      TOKEN_LIMIT ∧
    (processDiff sixSmallDiff sixSmallStaged []).wasTruncated = false ∧
    ((processDiff sixSmallDiff sixSmallStaged []).chunks.map FileChunk.diff).getLastD "" =
      "diff --git a/a6.ts b/a6.ts\n+x6" ∧
    strContainsSub (formatDiffForPrompt (processDiff sixSmallDiff sixSmallStaged []))
      "diff --git a/a6.ts b/a6.ts\n+x6" = false := by
  refine ⟨by decide, by decide, by decide, by decide⟩

/-- C1 amended: with the Reducer's fixed token limit
(`TOKEN_LIMIT = 2000`; `processDiff` takes no budget parameter, so the
budget `commit.ts` passes is ignored), `wasTruncated` is false exactly
when the estimate of the serialized retained chunks is at most the
limit; and for every diff whose estimate is within the limit, unless
the initial-commit shortcut fires, the rendered output contains every
retained chunk's full diff text. -/
theorem C1_untruncated_iff_under_limit (raw : String) (staged : List StagedFile)
    (extra : List String) :
    ((processDiff raw staged extra).wasTruncated = false ↔
      estimateTokens (serializeChunks (retainedChunks raw staged extra)) ≤ TOKEN_LIMIT) ∧
    (estimateTokens (serializeChunks (retainedChunks raw staged extra)) ≤ TOKEN_LIMIT →
      isInitialCommit (processDiff raw staged extra).chunks = false →
      ∀ c ∈ (processDiff raw staged extra).chunks,
        strContainsSub (formatDiffForPrompt (processDiff raw staged extra)) c.diff = true) := by
  by_cases htrim : jsTrimIsEmpty raw = true
  · have hchunks : retainedChunks raw staged extra = [] := by
      unfold retainedChunks
      rw [parseDiffIntoChunks_of_whitespace raw htrim staged]
      rfl
    have hpd : processDiff raw staged extra =
        { chunks := [], summary := "No changes", totalAdditions := 0,
          totalDeletions := 0, wasFiltered := false, wasTruncated := false } := by
      simp [processDiff, htrim]
    rw [hpd, hchunks]
    constructor
    · simp [serializeChunks, jsJoin, estimateTokens, TOKEN_LIMIT]
    · intro _ _ c hc
      simp at hc
  · have htrim' : jsTrimIsEmpty raw = false := by
      cases h : jsTrimIsEmpty raw
      · rfl
      · exact absurd h htrim
    rcases le_or_lt (estimateTokens (serializeChunks (retainedChunks raw staged extra)))
        TOKEN_LIMIT with hle | hgt
    · obtain ⟨hch, hwt⟩ := processDiff_of_le raw staged extra htrim' hle
      constructor
      · simp [hwt, hle]
      · intro _ hic c hc
        rw [formatDiffForPrompt, if_neg, if_neg (by simp [hic])]
        · unfold strContainsSub
          rw [listContainsSub_iff]
          have hmem : c.diff ∈ diffNoteParts (processDiff raw staged extra) ++ ["---"] ++
              (processDiff raw staged extra).chunks.map FileChunk.diff := by
            apply List.mem_append_right
            exact List.mem_map_of_mem FileChunk.diff hc
          exact infix_jsJoin_of_mem "\n\n" _ c.diff hmem
        · intro hzero
          rw [List.length_eq_zero] at hzero
          rw [hzero] at hc
          simp at hc
    · have hwt := processDiff_of_gt raw staged extra htrim' hgt
      constructor
      · rw [hwt]
        constructor
        · intro h; exact absurd h (by simp)
        · intro h; omega
      · intro hle _
        omega

/-- Witness for the amended C1 at a small one-file diff. -/
theorem C1_untruncated_iff_under_limit_witness :
    ((processDiff "diff --git a/x.ts b/x.ts\n+foo" [⟨"M", "x.ts", none⟩] []).wasTruncated =
        false ↔
      estimateTokens (serializeChunks (retainedChunks "diff --git a/x.ts b/x.ts\n+foo"
        [⟨"M", "x.ts", none⟩] [])) ≤ TOKEN_LIMIT) ∧
    strContainsSub
      (formatDiffForPrompt (processDiff "diff --git a/x.ts b/x.ts\n+foo"
        [⟨"M", "x.ts", none⟩] []))
      (FileChunk.mk "x.ts" "M" none "diff --git a/x.ts b/x.ts\n+foo" 1 0).diff = true :=
  ⟨(C1_untruncated_iff_under_limit "diff --git a/x.ts b/x.ts\n+foo"
      [⟨"M", "x.ts", none⟩] []).1,
   (C1_untruncated_iff_under_limit "diff --git a/x.ts b/x.ts\n+foo"
      [⟨"M", "x.ts", none⟩] []).2 (by decide) (by decide)
      (FileChunk.mk "x.ts" "M" none "diff --git a/x.ts b/x.ts\n+foo" 1 0) (by decide)⟩

theorem jsJoin_prepend (sep x a : String) (t : List String) :
    x ++ jsJoin sep (a :: t) = jsJoin sep ((x ++ a) :: t) := by
  simp only [jsJoin]
  exact (jsJoin_foldl_shift sep t x a).symm

theorem strAppend_empty (s : String) : s ++ "" = s := by
  apply String.ext
  rw [strData_append]
  simp [show ("" : String).data = [] from rfl]

theorem jsJoin_newline_length :
    ∀ (ls : List String), ls ≠ [] →
      (jsJoin "\n" ls).length = (ls.map String.length).sum + (ls.length - 1) := by
  intro ls
  induction ls with
  | nil => intro h; exact absurd rfl h
  | cons a t ih =>
    intro _
    cases t with
    | nil => simp [jsJoin]
    | cons b t' =>
      rw [jsJoin_cons_cons, strLength_append, strLength_append, ih (by simp)]
      simp only [List.map_cons, List.sum_cons, List.length_cons]
      have : ("\n" : String).length = 1 := rfl
      omega

/-! ## Concrete overflow inputs shared by the truncation claims -/

/-- A 150-character filler line. -/
def longLine : String := ⟨List.replicate 150 'x'⟩

def bigTsLines : List String := "a/big.ts b/big.ts" :: List.replicate 70 longLine

/-- The fragment of a large TypeScript file: a header line and seventy
150-character filler lines. -/
def bigTsFrag : String := jsJoin "\n" bigTsLines

/-- The fragment of a small added YAML file. -/
def yamlFrag : String := "a/data.yaml b/data.yaml\n+v: 1"

/-- An over-limit raw diff: one large source file followed by one small
non-source file. -/
def rawOverflow : String := "diff --git " ++ bigTsFrag ++ "\n" ++ ("diff --git " ++ yamlFrag)

def stagedOverflow : List StagedFile :=
  [⟨"M", "big.ts", none⟩, ⟨"A", "data.yaml", none⟩]

def bigChunk : FileChunk :=
  { path := "big.ts", status := "M", oldPath := none,
    diff := "diff --git " ++ (bigTsFrag ++ "\n"), additions := 0, deletions := 0 }

def yamlChunk : FileChunk :=
  { path := "data.yaml", status := "A", oldPath := none,
    diff := "diff --git " ++ yamlFrag, additions := 1, deletions := 0 }

theorem longLine_no_newline : '\n' ∉ longLine.data := by
  intro h
  have hx : '\n' ∈ List.replicate 150 'x' := h
  have := List.eq_of_mem_replicate hx
  exact absurd this (by decide)

theorem longLine_head : longLine.data.head? = some 'x' := by
  show (List.replicate 150 'x').head? = some 'x'
  rw [List.replicate_succ]
  rfl

theorem longLine_length : longLine.length = 150 := by
  show (List.replicate 150 'x').length = 150
  simp

theorem bigTsLines_cond :
    ∀ s ∈ bigTsLines, s.data ≠ [] ∧ '\n' ∉ s.data ∧ s.data.head? ≠ some 'd' := by
  intro s hs
  rcases List.mem_cons.mp hs with h1 | h2
  · subst h1
    refine ⟨by decide, by decide, by decide⟩
  · have : s = longLine := List.eq_of_mem_replicate h2
    subst this
    refine ⟨?_, longLine_no_newline, ?_⟩
    · show List.replicate 150 'x' ≠ []
      simp
    · rw [longLine_head]
      decide

theorem strIsEmpty_iff (s : String) : strIsEmpty s = true ↔ s.data = [] := by
  unfold strIsEmpty
  cases h : s.data <;> simp [h]

theorem splitDG_rawOverflow :
    splitDG rawOverflow.data true = [[], (bigTsFrag ++ "\n").data, yamlFrag.data] := by
  have hdata : rawOverflow.data =
      DIFF_MARKER ++ ((jsJoin "\n" bigTsLines).data ++
        ('\n' :: (DIFF_MARKER ++ yamlFrag.data))) := by
    show ("diff --git " ++ bigTsFrag ++ "\n" ++ ("diff --git " ++ yamlFrag)).data = _
    simp only [strData_append, List.append_assoc]
    rfl
  rw [hdata, splitDG_marker,
    splitDG_join_lines bigTsLines (by simp [bigTsLines]) bigTsLines_cond _ false,
    splitDG_cons_newline, splitDG_marker]
  have hyaml : splitDG yamlFrag.data false = [yamlFrag.data] := by decide
  rw [hyaml]
  simp only [prependHead]
  rw [strData_append]
  rfl

theorem frag1_lines : jsSplitLines (bigTsFrag ++ "\n") = bigTsLines ++ [""] := by
  have hjoin : bigTsFrag ++ "\n" = jsJoin "\n" (bigTsLines ++ [""]) := by
    rw [jsJoin_append_single _ _ _ (by simp [bigTsLines]), strAppend_empty]
    rfl
  rw [hjoin]
  apply jsSplitLines_jsJoin _ (by simp)
  intro s hs
  rcases List.mem_append.mp hs with h1 | h2
  · exact (bigTsLines_cond s h1).2.1
  · rw [List.mem_singleton.mp h2]
    decide

theorem countDiffChanges_frag1 : countDiffChanges (bigTsFrag ++ "\n") = (0, 0) := by
  unfold countDiffChanges
  rw [frag1_lines]
  show (("a/big.ts b/big.ts" :: (List.replicate 70 longLine ++ [""])).foldl _ (0, 0)) = (0, 0)
  rw [List.foldl_cons, List.foldl_append]
  have hstep : ∀ b : Nat × Nat,
      (fun (ad : Nat × Nat) (line : String) =>
        if strStartsWith line "+" && !strStartsWith line "+++" then (ad.1 + 1, ad.2)
        else if strStartsWith line "-" && !strStartsWith line "---" then (ad.1, ad.2 + 1)
        else ad) b longLine = b := by
    intro b
    have h1 : strStartsWith longLine "+" = false := by decide
    have h2 : strStartsWith longLine "-" = false := by decide
    simp [h1, h2]
  have hhdr : (if strStartsWith "a/big.ts b/big.ts" "+" &&
      !strStartsWith "a/big.ts b/big.ts" "+++" then ((0 : Nat) + 1, (0 : Nat))
      else if strStartsWith "a/big.ts b/big.ts" "-" &&
        !strStartsWith "a/big.ts b/big.ts" "---" then (0, 0 + 1)
      else ((0 : Nat), (0 : Nat))) = (0, 0) := by decide
  rw [hhdr, foldl_replicate_const _ longLine hstep 70 (0, 0)]
  decide

theorem findHeader_frag1 : findHeader (bigTsFrag ++ "\n") = some ("big.ts", "big.ts") := by
  unfold findHeader
  rw [frag1_lines]
  show List.findSome? headerMatchLine ("a/big.ts b/big.ts" :: _) = _
  rw [List.findSome?_cons]
  have : headerMatchLine "a/big.ts b/big.ts" = some ("big.ts", "big.ts") := by decide
  rw [this]

theorem strIsEmpty_frag1 : strIsEmpty (bigTsFrag ++ "\n") = false := by
  cases h : strIsEmpty (bigTsFrag ++ "\n")
  · rfl
  · exfalso
    have h2 := (strIsEmpty_iff _).mp h
    rw [strData_append] at h2
    simp at h2

theorem parse_rawOverflow :
    parseDiffIntoChunks rawOverflow stagedOverflow = [bigChunk, yamlChunk] := by
  have hfl : (([[], (bigTsFrag ++ "\n").data, yamlFrag.data].map
        (fun l => (⟨l⟩ : String))).filter (fun s => !strIsEmpty s)) =
      [bigTsFrag ++ "\n", yamlFrag] := by
    simp only [List.map_cons, List.map_nil, strMk_data]
    rw [show (⟨([] : List Char)⟩ : String) = "" from rfl]
    simp [List.filter_cons, strIsEmpty_frag1,
      show strIsEmpty ("" : String) = true from rfl,
      show strIsEmpty yamlFrag = false from by decide]
  unfold parseDiffIntoChunks
  rw [splitDG_rawOverflow, hfl]
  simp only [List.filterMap_cons, List.filterMap_nil]
  rw [findHeader_frag1]
  simp only [countDiffChanges_frag1]
  rw [show stagedOverflow.find?
      (fun f => f.path == "big.ts" || f.oldPath == some "big.ts") =
      some ⟨"M", "big.ts", none⟩ from by decide]
  rw [show findHeader yamlFrag = some ("data.yaml", "data.yaml") from by decide]
  rfl

/-- The line list of `bigChunk.diff`. -/
def bigDiffLines : List String :=
  "diff --git a/big.ts b/big.ts" :: (List.replicate 70 longLine ++ [""])

theorem bigTsLines_append_empty :
    bigTsLines ++ [""] = "a/big.ts b/big.ts" :: (List.replicate 70 longLine ++ [""]) := by
  simp [bigTsLines]

theorem bigChunk_diff_eq : bigChunk.diff = jsJoin "\n" bigDiffLines := by
  show "diff --git " ++ (bigTsFrag ++ "\n") = _
  have hjoin : bigTsFrag ++ "\n" = jsJoin "\n" (bigTsLines ++ [""]) := by
    rw [jsJoin_append_single _ _ _ (by simp [bigTsLines]), strAppend_empty]
    rfl
  rw [hjoin, bigTsLines_append_empty, jsJoin_prepend]
  rw [show ("diff --git " ++ "a/big.ts b/big.ts") = "diff --git a/big.ts b/big.ts" from by decide]
  rfl

theorem bigDiffLines_cond : ∀ s ∈ bigDiffLines, '\n' ∉ s.data := by
  intro s hs
  rcases List.mem_cons.mp hs with h1 | h2
  · subst h1; decide
  · rcases List.mem_append.mp h2 with h3 | h4
    · rw [List.eq_of_mem_replicate h3]; exact longLine_no_newline
    · rw [List.mem_singleton.mp h4]; decide

theorem bigChunk_lines : jsSplitLines bigChunk.diff = bigDiffLines := by
  rw [bigChunk_diff_eq]
  exact jsSplitLines_jsJoin _ (by simp [bigDiffLines]) bigDiffLines_cond

theorem bigDiffLines_length : bigDiffLines.length = 72 := by
  simp [bigDiffLines]

/-- The line list of the once-truncated big chunk. -/
def cappedBigLines : List String :=
  "diff --git a/big.ts b/big.ts" ::
    (List.replicate 59 longLine ++ ["... (truncated 12 more lines)"])

/-- `bigChunk` after the per-chunk 60-line cap. -/
def cappedBig : FileChunk := { bigChunk with diff := jsJoin "\n" cappedBigLines }

theorem bigDiffLines_take :
    bigDiffLines.take 60 = "diff --git a/big.ts b/big.ts" :: List.replicate 59 longLine := by
  show ("diff --git a/big.ts b/big.ts" :: (List.replicate 70 longLine ++ [""])).take 60 = _
  rw [List.take_succ_cons]
  congr 1

theorem truncate_bigChunk :
    truncateLines bigChunk.diff MAX_LINES_PER_FILE = jsJoin "\n" cappedBigLines := by
  have hM : MAX_LINES_PER_FILE = 60 := rfl
  rw [hM]
  have h : 60 < (jsSplitLines bigChunk.diff).length := by
    rw [bigChunk_lines, bigDiffLines_length]; decide
  rw [truncateLines_of_gt _ _ (by decide) h, bigChunk_lines, bigDiffLines_take,
    bigDiffLines_length]
  rw [show (("... (truncated " ++ toString (72 - 60) ++ " more lines)") : String)
      = "... (truncated 12 more lines)" from by decide]
  simp [cappedBigLines]

theorem capChunk_bigChunk : capChunk bigChunk = cappedBig := by
  unfold capChunk
  simp only [bigChunk_lines, bigDiffLines_length, MAX_LINES_PER_FILE]
  rw [if_pos (by decide)]
  rw [show truncateLines bigChunk.diff 60 = jsJoin "\n" cappedBigLines from truncate_bigChunk]
  rfl

theorem capChunk_yamlChunk : capChunk yamlChunk = yamlChunk := by decide

theorem chunkBefore_yaml_big : chunkBefore yamlChunk bigChunk = false := by decide

theorem sort_overflow :
    stableSortBy chunkBefore [bigChunk, yamlChunk] = [bigChunk, yamlChunk] := by
  show insertStable chunkBefore yamlChunk [bigChunk] = [bigChunk, yamlChunk]
  unfold insertStable
  rw [if_neg (by simp [chunkBefore_yaml_big])]
  rfl

theorem capped_overflow :
    cappedSortedChunks [bigChunk, yamlChunk] = [cappedBig, yamlChunk] := by
  unfold cappedSortedChunks
  rw [sort_overflow]
  simp only [List.map_cons, List.map_nil, capChunk_bigChunk, capChunk_yamlChunk]

theorem bigChunk_diff_length : bigChunk.diff.length = 10599 := by
  rw [bigChunk_diff_eq, jsJoin_newline_length _ (by simp [bigDiffLines])]
  have hh : ("diff --git a/big.ts b/big.ts" : String).length = 28 := by decide
  have he : ("" : String).length = 0 := rfl
  simp [bigDiffLines, List.map_replicate, longLine_length, List.sum_replicate, hh, he]

theorem serialize_retained_estimate :
    estimateTokens (serializeChunks [bigChunk, yamlChunk]) = 2660 := by
  have hlen : (serializeChunks [bigChunk, yamlChunk]).length = 10640 := by
    show (jsJoin "\n" [bigChunk.diff, yamlChunk.diff]).length = 10640
    rw [jsJoin_newline_length _ (by simp)]
    have hy : yamlChunk.diff.length = 40 := by decide
    simp [bigChunk_diff_length, hy]
  unfold estimateTokens
  rw [hlen]

theorem cappedBigLines_cond : ∀ s ∈ cappedBigLines, '\n' ∉ s.data := by
  intro s hs
  rcases List.mem_cons.mp hs with h1 | h2
  · subst h1; decide
  · rcases List.mem_append.mp h2 with h3 | h4
    · rw [List.eq_of_mem_replicate h3]; exact longLine_no_newline
    · rw [List.mem_singleton.mp h4]; decide

theorem cappedBig_lines : jsSplitLines cappedBig.diff = cappedBigLines := by
  show jsSplitLines (jsJoin "\n" cappedBigLines) = cappedBigLines
  exact jsSplitLines_jsJoin _ (by simp [cappedBigLines]) cappedBigLines_cond

theorem cappedBigLines_length : cappedBigLines.length = 61 := by
  simp [cappedBigLines]

theorem cappedBig_diff_length : cappedBig.diff.length = 8967 := by
  show (jsJoin "\n" cappedBigLines).length = 8967
  rw [jsJoin_newline_length _ (by simp [cappedBigLines])]
  have hh : ("diff --git a/big.ts b/big.ts" : String).length = 28 := by decide
  have ht : ("... (truncated 12 more lines)" : String).length = 29 := by decide
  simp [cappedBigLines, List.map_replicate, longLine_length, List.sum_replicate, hh, ht]

theorem serialize_capped_estimate :
    estimateTokens (serializeChunks [cappedBig, yamlChunk]) = 2252 := by
  have hlen : (serializeChunks [cappedBig, yamlChunk]).length = 9008 := by
    show (jsJoin "\n" [cappedBig.diff, yamlChunk.diff]).length = 9008
    rw [jsJoin_newline_length _ (by simp)]
    have hy : yamlChunk.diff.length = 40 := by decide
    simp [cappedBig_diff_length, hy]
  unfold estimateTokens
  rw [hlen]

/-- The line list of the big chunk after the overflow path re-truncates
the already-capped text: the trailer is rewritten to count only the one
line dropped from the capped text. -/
def doubleBigLines : List String :=
  "diff --git a/big.ts b/big.ts" ::
    (List.replicate 59 longLine ++ ["... (truncated 1 more lines)"])

/-- The big chunk as it appears in the final overflow output. -/
def doubleBig : FileChunk := { bigChunk with diff := jsJoin "\n" doubleBigLines }

theorem cappedBigLines_take :
    cappedBigLines.take 60 = "diff --git a/big.ts b/big.ts" :: List.replicate 59 longLine := by
  show ("diff --git a/big.ts b/big.ts" ::
    (List.replicate 59 longLine ++ ["... (truncated 12 more lines)"])).take 60 = _
  rw [List.take_succ_cons]
  congr 1

theorem truncate_cappedBig :
    truncateLines cappedBig.diff MAX_LINES_PER_FILE = jsJoin "\n" doubleBigLines := by
  have hM : MAX_LINES_PER_FILE = 60 := rfl
  rw [hM]
  have h : 60 < (jsSplitLines cappedBig.diff).length := by
    rw [cappedBig_lines, cappedBigLines_length]; decide
  rw [truncateLines_of_gt _ _ (by decide) h, cappedBig_lines, cappedBigLines_take,
    cappedBigLines_length]
  rw [show (("... (truncated " ++ toString (61 - 60) ++ " more lines)") : String)
      = "... (truncated 1 more lines)" from by decide]
  simp [doubleBigLines]

/-- The synthetic summary chunk generated for the dropped YAML file. -/
def synthChunk : FileChunk :=
  { path := "(other files summary)", status := "S", oldPath := none,
    diff := "Other files:\n  data.yaml (+1 -0)", additions := 1, deletions := 0 }

theorem otherSummary_yaml : otherFilesSummaryChunk [yamlChunk] = synthChunk := by decide

theorem overflow_step : overflowChunks [cappedBig, yamlChunk] = [doubleBig, synthChunk] := by
  have hsrc : isSourceFile cappedBig.path = true := by decide
  have hoth : isSourceFile yamlChunk.path = false := by decide
  unfold overflowChunks
  simp only [List.filter_cons, List.filter_nil, hsrc, hoth, Bool.not_true, Bool.not_false,
    Bool.false_eq_true, if_false, if_true, eq_self_iff_true, List.length_cons,
    List.length_nil, List.map_cons, List.map_nil, truncate_cappedBig, otherSummary_yaml]
  norm_num
  rfl

theorem processDiff_overflow_eq (raw : String) (staged : List StagedFile)
    (extra : List String) (htrim : jsTrimIsEmpty raw = false)
    (h1 : TOKEN_LIMIT < estimateTokens (serializeChunks (retainedChunks raw staged extra)))
    (h2 : TOKEN_LIMIT < estimateTokens (serializeChunks
      (cappedSortedChunks (retainedChunks raw staged extra)))) :
    (processDiff raw staged extra).wasTruncated = true ∧
    (processDiff raw staged extra).chunks =
      overflowChunks (cappedSortedChunks (retainedChunks raw staged extra)) := by
  refine ⟨processDiff_of_gt raw staged extra htrim h1, ?_⟩
  simp only [processDiff, htrim, Bool.false_eq_true, if_false, if_pos h1, if_pos h2]

theorem processDiff_capped_eq (raw : String) (staged : List StagedFile)
    (extra : List String) (htrim : jsTrimIsEmpty raw = false)
    (h1 : TOKEN_LIMIT < estimateTokens (serializeChunks (retainedChunks raw staged extra)))
    (h2 : estimateTokens (serializeChunks
      (cappedSortedChunks (retainedChunks raw staged extra))) ≤ TOKEN_LIMIT) :
    (processDiff raw staged extra).chunks =
      cappedSortedChunks (retainedChunks raw staged extra) := by
  simp only [processDiff, htrim, Bool.false_eq_true, if_false, if_pos h1,
    if_neg (Nat.not_lt.mpr h2)]

theorem trim_rawOverflow : jsTrimIsEmpty rawOverflow = false := by
  unfold jsTrimIsEmpty
  have hdata : rawOverflow.data = "diff --git ".data ++
      (bigTsFrag.data ++ ("\n".data ++ ("diff --git " ++ yamlFrag).data)) := by
    show ("diff --git " ++ bigTsFrag ++ "\n" ++ ("diff --git " ++ yamlFrag)).data = _
    simp only [strData_append, List.append_assoc]
  rw [hdata, List.all_append]
  rw [show ("diff --git ".data.all isJsWhitespace) = false from by decide]
  rfl

theorem retained_rawOverflow :
    retainedChunks rawOverflow stagedOverflow [] = [bigChunk, yamlChunk] := by
  unfold retainedChunks
  rw [parse_rawOverflow]
  have h1 : shouldIgnoreFile bigChunk.path [] = false := by decide
  have h2 : shouldIgnoreFile yamlChunk.path [] = false := by decide
  simp [List.filter_cons, h1, h2]

theorem processDiff_rawOverflow_chunks :
    (processDiff rawOverflow stagedOverflow []).chunks = [doubleBig, synthChunk] ∧
    (processDiff rawOverflow stagedOverflow []).wasTruncated = true := by
  have h1 : TOKEN_LIMIT < estimateTokens (serializeChunks
      (retainedChunks rawOverflow stagedOverflow [])) := by
    rw [retained_rawOverflow, serialize_retained_estimate]; decide
  have h2 : TOKEN_LIMIT < estimateTokens (serializeChunks
      (cappedSortedChunks (retainedChunks rawOverflow stagedOverflow []))) := by
    rw [retained_rawOverflow, capped_overflow, serialize_capped_estimate]; decide
  obtain ⟨ht, hc⟩ := processDiff_overflow_eq rawOverflow stagedOverflow []
    trim_rawOverflow h1 h2
  refine ⟨?_, ht⟩
  rw [hc, retained_rawOverflow, capped_overflow, overflow_step]

theorem overflowChunks_of_both (capped : List FileChunk)
    (hsrc : 0 < (capped.filter (fun c => isSourceFile c.path)).length)
    (hoth : 0 < (capped.filter (fun c => !isSourceFile c.path)).length) :
    overflowChunks capped =
      (capped.filter (fun c => isSourceFile c.path)).map
        (fun c => { c with diff := truncateLines c.diff MAX_LINES_PER_FILE })
      ++ [otherFilesSummaryChunk (capped.filter (fun c => !isSourceFile c.path))] := by
  simp only [overflowChunks]
  rw [if_pos hsrc, if_pos hoth]

/-- C3 counterexample: for the overflow diff `rawOverflow` (one large
`.ts` source file and one small added `.yaml` file), the reduction drops
the YAML file from the full chunks and represents it only in the
synthetic `Other files:` chunk, but the summary line for this Added file
is `  data.yaml (+1 -0)` with no `new: ` status prefix, contradicting
the claimed per-status prefixes of the `Other files:` lines. -/
theorem C3_other_files_prefix_counterexample :
    (processDiff rawOverflow stagedOverflow []).wasTruncated = true ∧
    (processDiff rawOverflow stagedOverflow []).chunks = [doubleBig, synthChunk] ∧
    yamlChunk.status = "A" ∧
    synthChunk.diff = "Other files:\n  data.yaml (+1 -0)" ∧
    strContainsSub synthChunk.diff "new: " = false ∧
    ∀ c ∈ (processDiff rawOverflow stagedOverflow []).chunks, c.path ≠ "data.yaml" := by
  obtain ⟨hc, ht⟩ := processDiff_rawOverflow_chunks
  refine ⟨ht, hc, rfl, rfl, by decide, ?_⟩
  rw [hc]
  intro c hmem
  rcases List.mem_cons.mp hmem with h1 | h2
  · subst h1; decide
  · rw [List.mem_singleton.mp h2]; decide

/-- C3 amended: in the overflow path (retained estimate and capped
estimate both above the limit) with both source and non-source chunks
present, the result keeps exactly the re-truncated source chunks
followed by one synthetic summary chunk for the non-source files; each
summary line is `  path (+a -d)` with an `oldPath → ` prefix only for
renames and no `new: `/`deleted: ` status labels; and no non-source
file also remains as a full (non-synthetic) chunk. -/
theorem C3_overflow_source_priority (raw : String) (staged : List StagedFile)
    (extra : List String) (htrim : jsTrimIsEmpty raw = false)
    (h1 : TOKEN_LIMIT < estimateTokens (serializeChunks (retainedChunks raw staged extra)))
    (h2 : TOKEN_LIMIT < estimateTokens (serializeChunks
      (cappedSortedChunks (retainedChunks raw staged extra))))
    (hsrc : 0 < ((cappedSortedChunks (retainedChunks raw staged extra)).filter
      (fun c => isSourceFile c.path)).length)
    (hoth : 0 < ((cappedSortedChunks (retainedChunks raw staged extra)).filter
      (fun c => !isSourceFile c.path)).length) :
    (processDiff raw staged extra).wasTruncated = true ∧
    (processDiff raw staged extra).chunks =
      ((cappedSortedChunks (retainedChunks raw staged extra)).filter
          (fun c => isSourceFile c.path)).map
        (fun c => { c with diff := truncateLines c.diff MAX_LINES_PER_FILE })
      ++ [otherFilesSummaryChunk ((cappedSortedChunks (retainedChunks raw staged extra)).filter
          (fun c => !isSourceFile c.path))] ∧
    (∀ c ∈ (cappedSortedChunks (retainedChunks raw staged extra)).filter
        (fun c => !isSourceFile c.path),
      otherFileLine c =
        "  " ++ (if c.status = "R" then showOptStr c.oldPath ++ " → " else "") ++
          c.path ++ " (+" ++ toString c.additions ++ " -" ++
          toString c.deletions ++ ")") ∧
    ∀ c ∈ (cappedSortedChunks (retainedChunks raw staged extra)).filter
        (fun c => !isSourceFile c.path),
      ∀ k ∈ (processDiff raw staged extra).chunks, k.status ≠ "S" → k.path ≠ c.path := by
  obtain ⟨ht, hc⟩ := processDiff_overflow_eq raw staged extra htrim h1 h2
  rw [overflowChunks_of_both _ hsrc hoth] at hc
  refine ⟨ht, hc, fun c _ => rfl, ?_⟩
  intro c hcm k hkm hkS
  rw [hc] at hkm
  rcases List.mem_append.mp hkm with hk1 | hk2
  · obtain ⟨c', hc', hck⟩ := List.mem_map.mp hk1
    have hsrc' : isSourceFile c'.path = true := by
      have := (List.mem_filter.mp hc').2
      simpa using this
    have hoth' : isSourceFile c.path = false := by
      have := (List.mem_filter.mp hcm).2
      simpa using this
    have hpath : k.path = c'.path := by rw [← hck]
    intro heq
    have hpp : c'.path = c.path := by rw [← hpath, heq]
    rw [hpp, hoth'] at hsrc'
    exact absurd hsrc' (by decide)
  · rw [List.mem_singleton.mp hk2] at hkS
    exact absurd rfl hkS

/-- Witness for the amended C3 at the overflow diff `rawOverflow`. -/
theorem C3_overflow_source_priority_witness :
    (processDiff rawOverflow stagedOverflow []).wasTruncated = true ∧
    (processDiff rawOverflow stagedOverflow []).chunks =
      ((cappedSortedChunks (retainedChunks rawOverflow stagedOverflow [])).filter
          (fun c => isSourceFile c.path)).map
        (fun c => { c with diff := truncateLines c.diff MAX_LINES_PER_FILE })
      ++ [otherFilesSummaryChunk
          ((cappedSortedChunks (retainedChunks rawOverflow stagedOverflow [])).filter
            (fun c => !isSourceFile c.path))] ∧
    (∀ c ∈ (cappedSortedChunks (retainedChunks rawOverflow stagedOverflow [])).filter
        (fun c => !isSourceFile c.path),
      otherFileLine c =
        "  " ++ (if c.status = "R" then showOptStr c.oldPath ++ " → " else "") ++
          c.path ++ " (+" ++ toString c.additions ++ " -" ++
          toString c.deletions ++ ")") ∧
    ∀ c ∈ (cappedSortedChunks (retainedChunks rawOverflow stagedOverflow [])).filter
        (fun c => !isSourceFile c.path),
      ∀ k ∈ (processDiff rawOverflow stagedOverflow []).chunks,
        k.status ≠ "S" → k.path ≠ c.path :=
  C3_overflow_source_priority rawOverflow stagedOverflow [] trim_rawOverflow
    (by rw [retained_rawOverflow, serialize_retained_estimate]; decide)
    (by rw [retained_rawOverflow, capped_overflow, serialize_capped_estimate]; decide)
    (by rw [retained_rawOverflow, capped_overflow]; decide)
    (by rw [retained_rawOverflow, capped_overflow]; decide)

theorem doubleBigLines_cond : ∀ s ∈ doubleBigLines, '\n' ∉ s.data := by
  intro s hs
  rcases List.mem_cons.mp hs with h1 | h2
  · subst h1; decide
  · rcases List.mem_append.mp h2 with h3 | h4
    · rw [List.eq_of_mem_replicate h3]; exact longLine_no_newline
    · rw [List.mem_singleton.mp h4]; decide

theorem doubleBig_lines : jsSplitLines doubleBig.diff = doubleBigLines := by
  show jsSplitLines (jsJoin "\n" doubleBigLines) = doubleBigLines
  exact jsSplitLines_jsJoin _ (by simp [doubleBigLines]) doubleBigLines_cond

theorem doubleBig_diff_length : doubleBig.diff.length = 8966 := by
  show (jsJoin "\n" doubleBigLines).length = 8966
  rw [jsJoin_newline_length _ (by simp [doubleBigLines])]
  have hh : ("diff --git a/big.ts b/big.ts" : String).length = 28 := by decide
  have ht : ("... (truncated 1 more lines)" : String).length = 28 := by decide
  simp [doubleBigLines, List.map_replicate, longLine_length, List.sum_replicate, hh, ht]

/-- C7 counterexample: for the overflow diff `rawOverflow`, the retained
source chunk's original text has 72 lines, so the claim predicts its
first 60 lines plus a `... (truncated 12 more lines)` trailer; but the
deep overflow path re-truncates the already-capped text, so the rendered
chunk ends in `... (truncated 1 more lines)` and differs from
`truncateLines` applied to the original diff text. -/
theorem C7_truncation_trailer_counterexample :
    (processDiff rawOverflow stagedOverflow []).wasTruncated = true ∧
    (processDiff rawOverflow stagedOverflow []).chunks = [doubleBig, synthChunk] ∧
    (jsSplitLines bigChunk.diff).length = 72 ∧
    jsSplitLines doubleBig.diff = doubleBigLines ∧
    doubleBigLines.getLast? = some "... (truncated 1 more lines)" ∧
    doubleBig.diff ≠ truncateLines bigChunk.diff MAX_LINES_PER_FILE := by
  obtain ⟨hc, ht⟩ := processDiff_rawOverflow_chunks
  refine ⟨ht, hc, ?_, doubleBig_lines, ?_, ?_⟩
  · rw [bigChunk_lines]; exact bigDiffLines_length
  · rw [show doubleBigLines =
      ("diff --git a/big.ts b/big.ts" :: List.replicate 59 longLine) ++
        ["... (truncated 1 more lines)"] from by simp [doubleBigLines]]
    exact List.getLast?_concat _
  · intro heq
    have hlen := congrArg String.length heq
    rw [doubleBig_diff_length, truncate_bigChunk] at hlen
    have : (jsJoin "\n" cappedBigLines).length = 8967 := cappedBig_diff_length
    omega

/-- C7 amended: whenever the serialized retained chunks are over the
token limit the result is marked truncated; and in the first-level
overflow path (the capped estimate fits) the final chunk list is
exactly the reordered chunks with `capChunk` applied, where the cap
replaces a text of more than 60 lines by its first 60 lines plus a
`... (truncated N more lines)` trailer counting the omitted lines, and
leaves shorter texts unchanged. -/
theorem C7_overflow_line_cap (raw : String) (staged : List StagedFile)
    (extra : List String) (htrim : jsTrimIsEmpty raw = false)
    (h1 : TOKEN_LIMIT < estimateTokens (serializeChunks (retainedChunks raw staged extra)))
    (h2 : estimateTokens (serializeChunks
      (cappedSortedChunks (retainedChunks raw staged extra))) ≤ TOKEN_LIMIT) :
    (processDiff raw staged extra).wasTruncated = true ∧
    (processDiff raw staged extra).chunks =
      (stableSortBy chunkBefore (retainedChunks raw staged extra)).map capChunk ∧
    ∀ c : FileChunk,
      (MAX_LINES_PER_FILE < (jsSplitLines c.diff).length →
        (capChunk c).diff = truncateLines c.diff MAX_LINES_PER_FILE ∧
        jsSplitLines (capChunk c).diff =
          (jsSplitLines c.diff).take MAX_LINES_PER_FILE ++
            ["... (truncated " ++
              toString ((jsSplitLines c.diff).length - MAX_LINES_PER_FILE) ++
              " more lines)"]) ∧
      ((jsSplitLines c.diff).length ≤ MAX_LINES_PER_FILE → capChunk c = c) := by
  refine ⟨processDiff_of_gt raw staged extra htrim h1,
    processDiff_capped_eq raw staged extra htrim h1 h2, ?_⟩
  intro c
  constructor
  · intro h
    have hdiff : (capChunk c).diff = truncateLines c.diff MAX_LINES_PER_FILE := by
      unfold capChunk
      rw [if_pos h]
    refine ⟨hdiff, ?_⟩
    rw [hdiff]
    exact jsSplitLines_truncateLines c.diff MAX_LINES_PER_FILE (by decide) h
  · intro h
    unfold capChunk
    rw [if_neg (Nat.not_lt.mpr h)]

/-! ## A single large non-source-free diff used as witness input for C7 -/

/-- One 8200-character filler line: most of the diff mass sits in a line
beyond the 60-line cap, so capping alone brings the diff under the
limit. -/
def hugeLine : String := ⟨List.replicate 8200 'x'⟩

theorem hugeLine_no_newline : '\n' ∉ hugeLine.data := by
  intro h
  have hx : '\n' ∈ List.replicate 8200 'x' := h
  have := List.eq_of_mem_replicate hx
  exact absurd this (by decide)

theorem hugeLine_head : hugeLine.data.head? = some 'x' := by
  show (List.replicate 8200 'x').head? = some 'x'
  rw [List.replicate_succ]
  rfl

theorem hugeLine_length : hugeLine.length = 8200 := by
  show (List.replicate 8200 'x').length = 8200
  exact List.length_replicate 8200 'x' 

/-- Fragment lines of the C7 witness diff: a header, sixty one-character
lines, then a single huge line. -/
def c7Lines : List String :=
  "a/notes.txt b/notes.txt" :: (List.replicate 60 "x" ++ [hugeLine])

def rawC7 : String := "diff --git " ++ jsJoin "\n" c7Lines

def stagedC7 : List StagedFile := [⟨"M", "notes.txt", none⟩]

def c7Chunk : FileChunk :=
  { path := "notes.txt", status := "M", oldPath := none,
    diff := "diff --git " ++ jsJoin "\n" c7Lines, additions := 0, deletions := 0 }

theorem c7Lines_cond :
    ∀ s ∈ c7Lines, s.data ≠ [] ∧ '\n' ∉ s.data ∧ s.data.head? ≠ some 'd' := by
  intro s hs
  rcases List.mem_cons.mp hs with h1 | h2
  · subst h1
    exact ⟨by decide, by decide, by decide⟩
  · rcases List.mem_append.mp h2 with h3 | h4
    · rw [List.eq_of_mem_replicate h3]
      exact ⟨by decide, by decide, by decide⟩
    · rw [List.mem_singleton.mp h4]
      refine ⟨?_, hugeLine_no_newline, ?_⟩
      · intro hc
        have h := congrArg List.length hc
        rw [show hugeLine.data.length = 8200 from hugeLine_length] at h
        exact absurd h (by decide)
      · rw [hugeLine_head]
        decide

theorem jsJoin_data_ne_nil (a : String) (t : List String) (ha : a.data ≠ []) :
    (jsJoin "\n" (a :: t)).data ≠ [] := by
  cases t with
  | nil => exact ha
  | cons b t' =>
    rw [jsJoin_cons_cons, strData_append, strData_append]
    simp [List.append_eq_nil, ha]

theorem splitDG_rawC7 : splitDG rawC7.data true = [[], (jsJoin "\n" c7Lines).data] := by
  have hdata : rawC7.data = DIFF_MARKER ++ (jsJoin "\n" c7Lines).data := by
    show ("diff --git " ++ jsJoin "\n" c7Lines).data = _
    rw [strData_append]
    rfl
  rw [hdata, splitDG_marker]
  have h := splitDG_join_lines c7Lines (by simp [c7Lines]) c7Lines_cond [] false
  rw [List.append_nil] at h
  rw [h, splitDG_nil]
  simp [prependHead]

theorem c7_frag_lines : jsSplitLines (jsJoin "\n" c7Lines) = c7Lines :=
  jsSplitLines_jsJoin _ (by simp [c7Lines]) (fun s hs => (c7Lines_cond s hs).2.1)

theorem findHeader_c7 :
    findHeader (jsJoin "\n" c7Lines) = some ("notes.txt", "notes.txt") := by
  unfold findHeader
  rw [c7_frag_lines]
  show List.findSome? headerMatchLine ("a/notes.txt b/notes.txt" :: _) = _
  rw [List.findSome?_cons]
  rw [show headerMatchLine "a/notes.txt b/notes.txt" =
    some ("notes.txt", "notes.txt") from by decide]

theorem countDiffChanges_c7 : countDiffChanges (jsJoin "\n" c7Lines) = (0, 0) := by
  unfold countDiffChanges
  rw [c7_frag_lines]
  show (("a/notes.txt b/notes.txt" ::
    (List.replicate 60 "x" ++ [hugeLine])).foldl _ (0, 0)) = (0, 0)
  rw [List.foldl_cons, List.foldl_append]
  have hstep : ∀ b : Nat × Nat,
      (fun (ad : Nat × Nat) (line : String) =>
        if strStartsWith line "+" && !strStartsWith line "+++" then (ad.1 + 1, ad.2)
        else if strStartsWith line "-" && !strStartsWith line "---" then (ad.1, ad.2 + 1)
        else ad) b "x" = b := by
    intro b
    have h1 : strStartsWith "x" "+" = false := by decide
    have h2 : strStartsWith "x" "-" = false := by decide
    simp [h1, h2]
  have hhdr : (if strStartsWith "a/notes.txt b/notes.txt" "+" &&
      !strStartsWith "a/notes.txt b/notes.txt" "+++" then ((0 : Nat) + 1, (0 : Nat))
      else if strStartsWith "a/notes.txt b/notes.txt" "-" &&
        !strStartsWith "a/notes.txt b/notes.txt" "---" then (0, 0 + 1)
      else ((0 : Nat), (0 : Nat))) = (0, 0) := by decide
  rw [hhdr, foldl_replicate_const _ "x" hstep 60 (0, 0)]
  have hh1 : strStartsWith hugeLine "+" = false := by decide
  have hh2 : strStartsWith hugeLine "-" = false := by decide
  simp [hh1, hh2]

theorem strIsEmpty_c7frag : strIsEmpty (jsJoin "\n" c7Lines) = false := by
  cases h : strIsEmpty (jsJoin "\n" c7Lines)
  · rfl
  · exact absurd ((strIsEmpty_iff _).mp h)
      (jsJoin_data_ne_nil "a/notes.txt b/notes.txt"
        (List.replicate 60 "x" ++ [hugeLine]) (by decide))

theorem parse_rawC7 : parseDiffIntoChunks rawC7 stagedC7 = [c7Chunk] := by
  have hfl : (([[], (jsJoin "\n" c7Lines).data].map
        (fun l => (⟨l⟩ : String))).filter (fun s => !strIsEmpty s)) =
      [jsJoin "\n" c7Lines] := by
    simp only [List.map_cons, List.map_nil, strMk_data]
    rw [show (⟨([] : List Char)⟩ : String) = "" from rfl]
    simp [List.filter_cons, strIsEmpty_c7frag,
      show strIsEmpty ("" : String) = true from rfl]
  unfold parseDiffIntoChunks
  rw [splitDG_rawC7, hfl]
  simp only [List.filterMap_cons, List.filterMap_nil]
  rw [findHeader_c7]
  simp only [countDiffChanges_c7]
  rw [show stagedC7.find?
      (fun f => f.path == "notes.txt" || f.oldPath == some "notes.txt") =
      some ⟨"M", "notes.txt", none⟩ from by decide]
  rfl

theorem trim_rawC7 : jsTrimIsEmpty rawC7 = false := by
  unfold jsTrimIsEmpty
  have hdata : rawC7.data = "diff --git ".data ++ (jsJoin "\n" c7Lines).data := by
    show ("diff --git " ++ jsJoin "\n" c7Lines).data = _
    rw [strData_append]
  rw [hdata, List.all_append]
  rw [show ("diff --git ".data.all isJsWhitespace) = false from by decide]
  rfl

theorem retained_c7 : retainedChunks rawC7 stagedC7 [] = [c7Chunk] := by
  unfold retainedChunks
  rw [parse_rawC7]
  have h1 : shouldIgnoreFile c7Chunk.path [] = false := by decide
  simp [List.filter_cons, h1]

/-- The line list of `c7Chunk.diff`. -/
def c7DiffLines : List String :=
  "diff --git a/notes.txt b/notes.txt" :: (List.replicate 60 "x" ++ [hugeLine])

theorem c7Chunk_diff_eq : c7Chunk.diff = jsJoin "\n" c7DiffLines := by
  show "diff --git " ++
    jsJoin "\n" ("a/notes.txt b/notes.txt" :: (List.replicate 60 "x" ++ [hugeLine])) = _
  rw [jsJoin_prepend]
  rw [show ("diff --git " ++ "a/notes.txt b/notes.txt")
      = "diff --git a/notes.txt b/notes.txt" from by decide]
  rfl

theorem c7DiffLines_cond : ∀ s ∈ c7DiffLines, '\n' ∉ s.data := by
  intro s hs
  rcases List.mem_cons.mp hs with h1 | h2
  · subst h1; decide
  · rcases List.mem_append.mp h2 with h3 | h4
    · rw [List.eq_of_mem_replicate h3]; decide
    · rw [List.mem_singleton.mp h4]; exact hugeLine_no_newline

theorem c7Chunk_lines : jsSplitLines c7Chunk.diff = c7DiffLines := by
  rw [c7Chunk_diff_eq]
  exact jsSplitLines_jsJoin _ (by simp [c7DiffLines]) c7DiffLines_cond

theorem c7DiffLines_length : c7DiffLines.length = 62 := by
  simp [c7DiffLines]

/-- The line list of the capped C7 witness chunk. -/
def cappedC7Lines : List String :=
  "diff --git a/notes.txt b/notes.txt" ::
    (List.replicate 59 "x" ++ ["... (truncated 2 more lines)"])

/-- The C7 witness chunk after the per-chunk 60-line cap. -/
def cappedC7 : FileChunk := { c7Chunk with diff := jsJoin "\n" cappedC7Lines }

theorem c7DiffLines_take :
    c7DiffLines.take 60 = "diff --git a/notes.txt b/notes.txt" :: List.replicate 59 "x" := by
  show ("diff --git a/notes.txt b/notes.txt" ::
    (List.replicate 60 "x" ++ [hugeLine])).take 60 = _
  rw [List.take_succ_cons]
  congr 1

theorem truncate_c7Chunk :
    truncateLines c7Chunk.diff MAX_LINES_PER_FILE = jsJoin "\n" cappedC7Lines := by
  have hM : MAX_LINES_PER_FILE = 60 := rfl
  rw [hM]
  have h : 60 < (jsSplitLines c7Chunk.diff).length := by
    rw [c7Chunk_lines, c7DiffLines_length]; decide
  rw [truncateLines_of_gt _ _ (by decide) h, c7Chunk_lines, c7DiffLines_take,
    c7DiffLines_length]
  rw [show (("... (truncated " ++ toString (62 - 60) ++ " more lines)") : String)
      = "... (truncated 2 more lines)" from by decide]
  simp [cappedC7Lines]

theorem capChunk_c7 : capChunk c7Chunk = cappedC7 := by
  unfold capChunk
  simp only [c7Chunk_lines, c7DiffLines_length, MAX_LINES_PER_FILE]
  rw [if_pos (by decide)]
  rw [show truncateLines c7Chunk.diff 60 = jsJoin "\n" cappedC7Lines from truncate_c7Chunk]
  rfl

theorem capped_c7 : cappedSortedChunks [c7Chunk] = [cappedC7] := by
  show [capChunk c7Chunk] = [cappedC7]
  rw [capChunk_c7]

theorem c7Chunk_diff_length : c7Chunk.diff.length = 8355 := by
  rw [c7Chunk_diff_eq, jsJoin_newline_length _ (by simp [c7DiffLines])]
  have hh : ("diff --git a/notes.txt b/notes.txt" : String).length = 34 := by decide
  have hx : ("x" : String).length = 1 := rfl
  simp [c7DiffLines, List.map_replicate, hugeLine_length, List.sum_replicate, hh, hx]

theorem serialize_c7_estimate : estimateTokens (serializeChunks [c7Chunk]) = 2089 := by
  have hlen : (serializeChunks [c7Chunk]).length = 8355 := by
    show c7Chunk.diff.length = 8355
    exact c7Chunk_diff_length
  unfold estimateTokens
  rw [hlen]

theorem cappedC7_diff_length : cappedC7.diff.length = 181 := by
  show (jsJoin "\n" cappedC7Lines).length = 181
  rw [jsJoin_newline_length _ (by simp [cappedC7Lines])]
  have hh : ("diff --git a/notes.txt b/notes.txt" : String).length = 34 := by decide
  have hx : ("x" : String).length = 1 := rfl
  have ht : ("... (truncated 2 more lines)" : String).length = 28 := by decide
  simp [cappedC7Lines, List.map_replicate, List.sum_replicate, hh, hx, ht]

theorem serialize_cappedC7_estimate :
    estimateTokens (serializeChunks [cappedC7]) = 46 := by
  have hlen : (serializeChunks [cappedC7]).length = 181 := by
    show cappedC7.diff.length = 181
    exact cappedC7_diff_length
  unfold estimateTokens
  rw [hlen]

/-- Witness for the amended C7: a diff of one 62-line file whose mass
sits in a line beyond the cap, so that the original estimate exceeds
the limit but the capped estimate fits. -/
theorem C7_overflow_line_cap_witness :
    (processDiff rawC7 stagedC7 []).wasTruncated = true ∧
    (processDiff rawC7 stagedC7 []).chunks =
      (stableSortBy chunkBefore (retainedChunks rawC7 stagedC7 [])).map capChunk ∧
    ∀ c : FileChunk,
      (MAX_LINES_PER_FILE < (jsSplitLines c.diff).length →
        (capChunk c).diff = truncateLines c.diff MAX_LINES_PER_FILE ∧
        jsSplitLines (capChunk c).diff =
          (jsSplitLines c.diff).take MAX_LINES_PER_FILE ++
            ["... (truncated " ++
              toString ((jsSplitLines c.diff).length - MAX_LINES_PER_FILE) ++
              " more lines)"]) ∧
      ((jsSplitLines c.diff).length ≤ MAX_LINES_PER_FILE → capChunk c = c) :=
  C7_overflow_line_cap rawC7 stagedC7 [] trim_rawC7
    (by rw [retained_c7, serialize_c7_estimate]; decide)
    (by rw [retained_c7, capped_c7, serialize_cappedC7_estimate]; decide)

theorem overflowChunks_of_nosource (capped : List FileChunk)
    (hnosrc : (capped.filter (fun c => isSourceFile c.path)).length = 0)
    (hoth : 0 < (capped.filter (fun c => !isSourceFile c.path)).length) :
    overflowChunks capped = capped ++ [otherFilesSummaryChunk capped] := by
  have hnil : capped.filter (fun c => isSourceFile c.path) = [] :=
    List.length_eq_zero.mp hnosrc
  have hall : ∀ x ∈ capped, ¬ (isSourceFile x.path = true) :=
    List.filter_eq_nil_iff.mp hnil
  have hfilter : capped.filter (fun c => !isSourceFile c.path) = capped := by
    apply List.filter_eq_self.mpr
    intro a ha
    simp [Bool.eq_false_iff.mpr (hall a ha)]
  simp only [overflowChunks]
  rw [if_pos hoth, if_neg (by omega), hfilter]

/-- C10: when even the capped, reordered chunks exceed the token limit
and none of them has a source-code extension, `processDiff` keeps all
the capped non-source chunks as full diff chunks and additionally
appends the synthetic `Other files:` summary chunk listing those same
files, so each such file is represented both as a diff chunk and as a
summary line. -/
theorem C10_nonsource_double_representation (raw : String) (staged : List StagedFile)
    (extra : List String) (htrim : jsTrimIsEmpty raw = false)
    (h1 : TOKEN_LIMIT < estimateTokens (serializeChunks (retainedChunks raw staged extra)))
    (h2 : TOKEN_LIMIT < estimateTokens (serializeChunks
      (cappedSortedChunks (retainedChunks raw staged extra))))
    (hnosrc : ((cappedSortedChunks (retainedChunks raw staged extra)).filter
      (fun c => isSourceFile c.path)).length = 0)
    (hoth : 0 < ((cappedSortedChunks (retainedChunks raw staged extra)).filter
      (fun c => !isSourceFile c.path)).length) :
    (processDiff raw staged extra).wasTruncated = true ∧
    (processDiff raw staged extra).chunks =
      cappedSortedChunks (retainedChunks raw staged extra)
        ++ [otherFilesSummaryChunk (cappedSortedChunks (retainedChunks raw staged extra))] ∧
    ∀ c ∈ cappedSortedChunks (retainedChunks raw staged extra),
      c ∈ (processDiff raw staged extra).chunks ∧
      strContainsSub
        (otherFilesSummaryChunk (cappedSortedChunks (retainedChunks raw staged extra))).diff
        (otherFileLine c) = true := by
  obtain ⟨ht, hc⟩ := processDiff_overflow_eq raw staged extra htrim h1 h2
  rw [overflowChunks_of_nosource _ hnosrc hoth] at hc
  refine ⟨ht, hc, ?_⟩
  intro c hcm
  constructor
  · rw [hc]
    exact List.mem_append_left _ hcm
  · have hinf : (otherFileLine c).data <:+:
        ((otherFilesSummaryChunk (cappedSortedChunks (retainedChunks raw staged extra))).diff).data := by
      show (otherFileLine c).data <:+:
        ("Other files:\n" ++ jsJoin "\n"
          ((cappedSortedChunks (retainedChunks raw staged extra)).map otherFileLine)).data
      rw [strData_append]
      exact (infix_jsJoin_of_mem "\n" _ _
        (List.mem_map_of_mem otherFileLine hcm)).trans
        (List.suffix_append _ _).isInfix
    unfold strContainsSub
    exact (listContainsSub_iff _ _).mpr hinf

/-! ## A single large YAML-only diff used as witness input for C10 -/

/-- Fragment lines of the C10 witness diff: a YAML header and seventy
150-character filler lines. -/
def c10Lines : List String := "a/big.yaml b/big.yaml" :: List.replicate 70 longLine

def rawC10 : String := "diff --git " ++ jsJoin "\n" c10Lines

def stagedC10 : List StagedFile := [⟨"M", "big.yaml", none⟩]

def c10Chunk : FileChunk :=
  { path := "big.yaml", status := "M", oldPath := none,
    diff := "diff --git " ++ jsJoin "\n" c10Lines, additions := 0, deletions := 0 }

theorem c10Lines_cond :
    ∀ s ∈ c10Lines, s.data ≠ [] ∧ '\n' ∉ s.data ∧ s.data.head? ≠ some 'd' := by
  intro s hs
  rcases List.mem_cons.mp hs with h1 | h2
  · subst h1
    exact ⟨by decide, by decide, by decide⟩
  · have : s = longLine := List.eq_of_mem_replicate h2
    subst this
    refine ⟨?_, longLine_no_newline, ?_⟩
    · show List.replicate 150 'x' ≠ []
      simp
    · rw [longLine_head]
      decide

theorem splitDG_rawC10 : splitDG rawC10.data true = [[], (jsJoin "\n" c10Lines).data] := by
  have hdata : rawC10.data = DIFF_MARKER ++ (jsJoin "\n" c10Lines).data := by
    show ("diff --git " ++ jsJoin "\n" c10Lines).data = _
    rw [strData_append]
    rfl
  rw [hdata, splitDG_marker]
  have h := splitDG_join_lines c10Lines (by simp [c10Lines]) c10Lines_cond [] false
  rw [List.append_nil] at h
  rw [h, splitDG_nil]
  simp [prependHead]

theorem c10_frag_lines : jsSplitLines (jsJoin "\n" c10Lines) = c10Lines :=
  jsSplitLines_jsJoin _ (by simp [c10Lines]) (fun s hs => (c10Lines_cond s hs).2.1)

theorem findHeader_c10 :
    findHeader (jsJoin "\n" c10Lines) = some ("big.yaml", "big.yaml") := by
  unfold findHeader
  rw [c10_frag_lines]
  show List.findSome? headerMatchLine ("a/big.yaml b/big.yaml" :: _) = _
  rw [List.findSome?_cons]
  rw [show headerMatchLine "a/big.yaml b/big.yaml" =
    some ("big.yaml", "big.yaml") from by decide]

theorem countDiffChanges_c10 : countDiffChanges (jsJoin "\n" c10Lines) = (0, 0) := by
  unfold countDiffChanges
  rw [c10_frag_lines]
  show (("a/big.yaml b/big.yaml" :: List.replicate 70 longLine).foldl _ (0, 0)) = (0, 0)
  rw [List.foldl_cons]
  have hstep : ∀ b : Nat × Nat,
      (fun (ad : Nat × Nat) (line : String) =>
        if strStartsWith line "+" && !strStartsWith line "+++" then (ad.1 + 1, ad.2)
        else if strStartsWith line "-" && !strStartsWith line "---" then (ad.1, ad.2 + 1)
        else ad) b longLine = b := by
    intro b
    have h1 : strStartsWith longLine "+" = false := by decide
    have h2 : strStartsWith longLine "-" = false := by decide
    simp [h1, h2]
  have hhdr : (if strStartsWith "a/big.yaml b/big.yaml" "+" &&
      !strStartsWith "a/big.yaml b/big.yaml" "+++" then ((0 : Nat) + 1, (0 : Nat))
      else if strStartsWith "a/big.yaml b/big.yaml" "-" &&
        !strStartsWith "a/big.yaml b/big.yaml" "---" then (0, 0 + 1)
      else ((0 : Nat), (0 : Nat))) = (0, 0) := by decide
  rw [hhdr, foldl_replicate_const _ longLine hstep 70 (0, 0)]

theorem strIsEmpty_c10frag : strIsEmpty (jsJoin "\n" c10Lines) = false := by
  cases h : strIsEmpty (jsJoin "\n" c10Lines)
  · rfl
  · exact absurd ((strIsEmpty_iff _).mp h)
      (jsJoin_data_ne_nil "a/big.yaml b/big.yaml" (List.replicate 70 longLine) (by decide))

theorem parse_rawC10 : parseDiffIntoChunks rawC10 stagedC10 = [c10Chunk] := by
  have hfl : (([[], (jsJoin "\n" c10Lines).data].map
        (fun l => (⟨l⟩ : String))).filter (fun s => !strIsEmpty s)) =
      [jsJoin "\n" c10Lines] := by
    simp only [List.map_cons, List.map_nil, strMk_data]
    rw [show (⟨([] : List Char)⟩ : String) = "" from rfl]
    simp [List.filter_cons, strIsEmpty_c10frag,
      show strIsEmpty ("" : String) = true from rfl]
  unfold parseDiffIntoChunks
  rw [splitDG_rawC10, hfl]
  simp only [List.filterMap_cons, List.filterMap_nil]
  rw [findHeader_c10]
  simp only [countDiffChanges_c10]
  rw [show stagedC10.find?
      (fun f => f.path == "big.yaml" || f.oldPath == some "big.yaml") =
      some ⟨"M", "big.yaml", none⟩ from by decide]
  rfl

theorem trim_rawC10 : jsTrimIsEmpty rawC10 = false := by
  unfold jsTrimIsEmpty
  have hdata : rawC10.data = "diff --git ".data ++ (jsJoin "\n" c10Lines).data := by
    show ("diff --git " ++ jsJoin "\n" c10Lines).data = _
    rw [strData_append]
  rw [hdata, List.all_append]
  rw [show ("diff --git ".data.all isJsWhitespace) = false from by decide]
  rfl

theorem retained_c10 : retainedChunks rawC10 stagedC10 [] = [c10Chunk] := by
  unfold retainedChunks
  rw [parse_rawC10]
  have h1 : shouldIgnoreFile c10Chunk.path [] = false := by decide
  simp [List.filter_cons, h1]

/-- The line list of `c10Chunk.diff`. -/
def c10DiffLines : List String :=
  "diff --git a/big.yaml b/big.yaml" :: List.replicate 70 longLine

theorem c10Chunk_diff_eq : c10Chunk.diff = jsJoin "\n" c10DiffLines := by
  show "diff --git " ++
    jsJoin "\n" ("a/big.yaml b/big.yaml" :: List.replicate 70 longLine) = _
  rw [jsJoin_prepend]
  rw [show ("diff --git " ++ "a/big.yaml b/big.yaml")
      = "diff --git a/big.yaml b/big.yaml" from by decide]
  rfl

theorem c10DiffLines_cond : ∀ s ∈ c10DiffLines, '\n' ∉ s.data := by
  intro s hs
  rcases List.mem_cons.mp hs with h1 | h2
  · subst h1; decide
  · rw [List.eq_of_mem_replicate h2]; exact longLine_no_newline

theorem c10Chunk_lines : jsSplitLines c10Chunk.diff = c10DiffLines := by
  rw [c10Chunk_diff_eq]
  exact jsSplitLines_jsJoin _ (by simp [c10DiffLines]) c10DiffLines_cond

theorem c10DiffLines_length : c10DiffLines.length = 71 := by
  simp [c10DiffLines]

/-- The line list of the capped C10 witness chunk. -/
def cappedC10Lines : List String :=
  "diff --git a/big.yaml b/big.yaml" ::
    (List.replicate 59 longLine ++ ["... (truncated 11 more lines)"])

/-- The C10 witness chunk after the per-chunk 60-line cap. -/
def cappedC10 : FileChunk := { c10Chunk with diff := jsJoin "\n" cappedC10Lines }

theorem c10DiffLines_take :
    c10DiffLines.take 60 = "diff --git a/big.yaml b/big.yaml" :: List.replicate 59 longLine := by
  show ("diff --git a/big.yaml b/big.yaml" :: List.replicate 70 longLine).take 60 = _
  rw [List.take_succ_cons]
  congr 1

theorem truncate_c10Chunk :
    truncateLines c10Chunk.diff MAX_LINES_PER_FILE = jsJoin "\n" cappedC10Lines := by
  have hM : MAX_LINES_PER_FILE = 60 := rfl
  rw [hM]
  have h : 60 < (jsSplitLines c10Chunk.diff).length := by
    rw [c10Chunk_lines, c10DiffLines_length]; decide
  rw [truncateLines_of_gt _ _ (by decide) h, c10Chunk_lines, c10DiffLines_take,
    c10DiffLines_length]
  rw [show (("... (truncated " ++ toString (71 - 60) ++ " more lines)") : String)
      = "... (truncated 11 more lines)" from by decide]
  simp [cappedC10Lines]

theorem capChunk_c10 : capChunk c10Chunk = cappedC10 := by
  unfold capChunk
  simp only [c10Chunk_lines, c10DiffLines_length, MAX_LINES_PER_FILE]
  rw [if_pos (by decide)]
  rw [show truncateLines c10Chunk.diff 60 = jsJoin "\n" cappedC10Lines from truncate_c10Chunk]
  rfl

theorem capped_c10 : cappedSortedChunks [c10Chunk] = [cappedC10] := by
  show [capChunk c10Chunk] = [cappedC10]
  rw [capChunk_c10]

theorem c10Chunk_diff_length : c10Chunk.diff.length = 10602 := by
  rw [c10Chunk_diff_eq, jsJoin_newline_length _ (by simp [c10DiffLines])]
  have hh : ("diff --git a/big.yaml b/big.yaml" : String).length = 32 := by decide
  simp [c10DiffLines, List.map_replicate, longLine_length, List.sum_replicate, hh]

theorem serialize_c10_estimate : estimateTokens (serializeChunks [c10Chunk]) = 2651 := by
  have hlen : (serializeChunks [c10Chunk]).length = 10602 := by
    show c10Chunk.diff.length = 10602
    exact c10Chunk_diff_length
  unfold estimateTokens
  rw [hlen]

theorem cappedC10_diff_length : cappedC10.diff.length = 8971 := by
  show (jsJoin "\n" cappedC10Lines).length = 8971
  rw [jsJoin_newline_length _ (by simp [cappedC10Lines])]
  have hh : ("diff --git a/big.yaml b/big.yaml" : String).length = 32 := by decide
  have ht : ("... (truncated 11 more lines)" : String).length = 29 := by decide
  simp [cappedC10Lines, List.map_replicate, longLine_length, List.sum_replicate, hh, ht]

theorem serialize_cappedC10_estimate :
    estimateTokens (serializeChunks [cappedC10]) = 2243 := by
  have hlen : (serializeChunks [cappedC10]).length = 8971 := by
    show cappedC10.diff.length = 8971
    exact cappedC10_diff_length
  unfold estimateTokens
  rw [hlen]

/-- Witness for C10 at a diff containing only one large YAML file. -/
theorem C10_nonsource_double_representation_witness :
    (processDiff rawC10 stagedC10 []).wasTruncated = true ∧
    (processDiff rawC10 stagedC10 []).chunks =
      cappedSortedChunks (retainedChunks rawC10 stagedC10 [])
        ++ [otherFilesSummaryChunk (cappedSortedChunks (retainedChunks rawC10 stagedC10 []))] ∧
    ∀ c ∈ cappedSortedChunks (retainedChunks rawC10 stagedC10 []),
      c ∈ (processDiff rawC10 stagedC10 []).chunks ∧
      strContainsSub
        (otherFilesSummaryChunk (cappedSortedChunks (retainedChunks rawC10 stagedC10 []))).diff
        (otherFileLine c) = true :=
  C10_nonsource_double_representation rawC10 stagedC10 [] trim_rawC10
    (by rw [retained_c10, serialize_c10_estimate]; decide)
    (by rw [retained_c10, capped_c10, serialize_cappedC10_estimate]; decide)
    (by rw [retained_c10, capped_c10]; decide)
    (by rw [retained_c10, capped_c10]; decide)
